import Mathlib

/-!
Quota enforcement and configuration synthesis of `main.go`.

A shallow embedding of the enforcement tick of `startTrafficMonitoringLoop`
(the body of `case <-ticker.C`), of `queryV2RayStats`, of
`generateV2RayConfig`, of `handleRestartV2Ray` and of the handlers
`createUserHandler`, `updateUserHandler` and `deleteUserHandler`, followed by
the properties proved about them.

Conventions of the embedding

* Go's `int64` and `int` are `Int`; every place where the source computes an
  `int64` sum goes through `wrapInt64`, the two's-complement wrap-around.
* A Go `map[string]User` is a list of key/value pairs whose keys are pairwise
  distinct (`UsersConfig.WF`); `range` visits the list in list order, so all
  iteration orders of the map are covered by quantifying over lists.
* The stats gateway (`client.GetStats`) is a parameter: a transition function
  on an arbitrary gateway state `σ`, so that every sequence of answers,
  errors included, is covered.
* `time.Now().UTC()` is a parameter `clock`, read from the same state of the
  world; the result of `uuid.NewString()` and the result of an out-of-range
  `float64` to `int64` conversion are parameters as well.
* The answers of `saveUsersConfig` and of the operating system (signal, kill,
  JSON encoding, file write, process start) are parameters; the operations a
  goroutine performs are listed, in order, as a trace of `Event`s.
-/

namespace Gcvp

/-! ## Machine integers -/

/-- Two's-complement wrap-around of an integer to the range of Go's `int64`. -/
def wrapInt64 (x : Int) : Int := (x + 2 ^ 63) % 2 ^ 64 - 2 ^ 63

/-- The integer is a value of Go's `int64`. -/
def isInt64 (x : Int) : Prop := -(2 ^ 63) ≤ x ∧ x < 2 ^ 63

instance (x : Int) : Decidable (isInt64 x) :=
  inferInstanceAs (Decidable (-(2 ^ 63) ≤ x ∧ x < 2 ^ 63))

/-! ## `float64`, as far as `TrafficLimitGB` needs it -/

/-- A `float64` value. `finite m e` is the number `m * 2^e`; for a value of
the machine type `|m| < 2^53` and `-1074 ≤ e ≤ 971` (the exponent of a zero
is immaterial). -/
inductive Float64 where
  | finite (mant : Int) (exp : Int)
  | inf (negative : Bool)
  | nan
  deriving DecidableEq, Repr

/-- Integer part of `m * 2^e`, rounded toward zero. -/
def truncPow2 (m e : Int) : Int :=
  if 0 ≤ e then m * 2 ^ e.toNat else Int.tdiv m (2 ^ (-e).toNat)

/-- The bound `2^1024`, which the magnitude of a finite `float64` stays below
(written as a product of four factors `2^256`). -/
def float64Bound : Nat := 2 ^ 256 * 2 ^ 256 * 2 ^ 256 * 2 ^ 256

/-- The float64 product `x * 1024`. Multiplying a finite value by a power of
two only moves the exponent, so the product is exact unless its magnitude
reaches `float64Bound`, where it rounds to an infinity. -/
def Float64.mul1024 : Float64 → Float64
  | .finite m e =>
      if (float64Bound : Int) ≤ truncPow2 m.natAbs (e + 10) then .inf (decide (m < 0))
      else .finite m (e + 10)
  | .inf n => .inf n
  | .nan => .nan

/-- Go's conversion `int64(x)` of a `float64`: the fraction is discarded
(truncation toward zero); when the truncated value is not an `int64`, or `x`
is an infinity or a NaN, the result is implementation-dependent and is given
by `oor x`. -/
def Float64.toInt64 (oor : Float64 → Int) : Float64 → Int
  | .finite m e =>
      if -(2 ^ 63) ≤ truncPow2 m e ∧ truncPow2 m e < 2 ^ 63 then truncPow2 m e
      else oor (.finite m e)
  | x => oor x

/-- Out-of-range conversion on amd64: `CVTTSD2SQ` yields the "integer
indefinite" value `-2^63` for every out-of-range operand. -/
def oorAmd64 : Float64 → Int := fun _ => -(2 ^ 63)

/-- Out-of-range conversion on a saturating target (arm64 `FCVTZS`). -/
def oorSaturating : Float64 → Int
  | .finite m _ => if m < 0 then -(2 ^ 63) else 2 ^ 63 - 1
  | .inf n => if n then -(2 ^ 63) else 2 ^ 63 - 1
  | .nan => 0

/-! ## Time -/

/-- A `time.Time` kept in UTC (the data model has `createdAt` as a UTC
timestamp, and `createUserHandler` stores `time.Now().UTC()`), given as its
instant in nanoseconds since the Unix epoch. The value `t` stands for the
pair that `time.Time` holds once the monotonic reading is stripped: the
seconds `t / 10^9 + unixToInternal` since January 1 of year 1, an `int64`,
and the nanoseconds `t % 10^9` within the second. A `time.Time` whose
`Location` has daylight-saving transitions is not covered. -/
abbrev Time := Int

/-- The constant `unixToInternal` of package `time`: the seconds from
January 1 of year 1 to the Unix epoch. -/
def unixToInternal : Int := 62135596800

/-- The call `t.AddDate(0, 0, days)` for a `t` kept in UTC. `AddDate` rebuilds
the value with `Date(year, month, day+days, hour, min, sec, nsec, loc)`: the
calendar day moves by `days` and the clock reading is kept, which in UTC adds
`days * 86400` to the seconds since year 1 and keeps the nanoseconds. `Date`
computes those seconds in 64-bit arithmetic, so they wrap around like any
`int64`. -/
def Time.AddDate (t : Time) (days : Int) : Time :=
  (wrapInt64 (t / 1000000000 + unixToInternal + days * 86400) - unixToInternal) * 1000000000 +
    t % 1000000000

/-- The call `t.After(u)`: `t` is strictly later than `u`. -/
def Time.After (t u : Time) : Bool := decide (u < t)

/-! ## Accounts and the registry -/

/-- The struct `User`. -/
structure User where
  ID : String
  TrafficLimitGB : Float64
  TimeLimitDays : Int
  CreatedAt : Time
  TrafficUsedBytes : Int
  IsActive : Bool
  deriving DecidableEq, Repr

/-- The type `UsersConfig` (`map[string]User`), as an association list. -/
abbrev UsersConfig := List (String × User)

/-- The keys of the map. -/
def UsersConfig.keys (m : UsersConfig) : List String := m.map Prod.fst

/-- Well-formedness of a map: no key occurs twice. -/
def UsersConfig.WF (m : UsersConfig) : Prop := (UsersConfig.keys m).Nodup

instance (m : UsersConfig) : Decidable (UsersConfig.WF m) :=
  inferInstanceAs (Decidable (UsersConfig.keys m).Nodup)

/-- The map read `m[k]` (with its `ok` flag folded into the option). -/
def UsersConfig.get : UsersConfig → String → Option User
  | [], _ => none
  | (k', v) :: rest, k => if k' = k then some v else UsersConfig.get rest k

/-- The map write `m[k] = v`. -/
def UsersConfig.set : UsersConfig → String → User → UsersConfig
  | [], k, v => [(k, v)]
  | (k', v') :: rest, k, v =>
      if k' = k then (k, v) :: rest else (k', v') :: UsersConfig.set rest k v

/-! ## The stats gateway and `queryV2RayStats` -/

/-- Modelled from the spec: the message `Stat` of the generated package
`main/internal/v2rayapi/stats/command`, which is not among the sources; the
field `Value` is the `int64` counter read by `queryV2RayStats`. -/
structure Stat where
  Name : String
  Value : Int
  deriving DecidableEq, Repr

/-- Modelled from the spec: the message `GetStatsRequest` of the generated
package (`getCounter(name, reset)` of the metrics gateway), with the two
fields `queryV2RayStats` fills in. -/
structure GetStatsRequest where
  Name : String
  Reset : Bool
  deriving DecidableEq, Repr

/-- Modelled from the spec: the message `GetStatsResponse` of the generated
package; `Stat` is a pointer and may be nil. -/
structure GetStatsResponse where
  Stat : Option Stat
  deriving DecidableEq, Repr

/-- What one call `client.GetStats(ctx, req)` returns: the response pointer
(possibly nil) and the error (possibly nil). -/
structure GetStatsReply where
  resp : Option GetStatsResponse
  err : Option String
  deriving DecidableEq, Repr

/-- A `StatsServiceClient`: each call answers from the gateway state and moves
it (counters are reset on read). -/
abbrev StatsServiceClient (σ : Type) := σ → GetStatsRequest → GetStatsReply × σ

/-- The three results of `queryV2RayStats`. -/
structure QueryResult where
  uplink : Int
  downlink : Int
  err : Option String
  deriving DecidableEq, Repr

/-- The counter read out of a reply: `resp.Stat.Value` when neither pointer is
nil, and the zero value of the named result otherwise. -/
def statValue (r : GetStatsReply) : Int :=
  match r.resp with
  | some resp =>
      match resp.Stat with
      | some st => st.Value
      | none => 0
  | none => 0

/-- The request `queryV2RayStats` sends for the uplink counter. -/
def uplinkRequest (userEmailTag : String) (resetCounter : Bool) : GetStatsRequest :=
  { Name := "user>>>" ++ userEmailTag ++ ">>>traffic>>>uplink", Reset := resetCounter }

/-- The request `queryV2RayStats` sends for the downlink counter. -/
def downlinkRequest (userEmailTag : String) (resetCounter : Bool) : GetStatsRequest :=
  { Name := "user>>>" ++ userEmailTag ++ ">>>traffic>>>downlink", Reset := resetCounter }

/-- The function `queryV2RayStats`. The variable `err` is assigned by the
uplink call and then again by the downlink call, so the final test
`if err != nil` sees the error of the downlink call. -/
def queryV2RayStats {σ : Type} (client : Option (StatsServiceClient σ)) (s : σ)
    (userEmailTag : String) (resetCounter : Bool) : QueryResult × σ :=
  match client with
  | none => ({ uplink := 0, downlink := 0, err := some "StatsServiceClient is nil" }, s)
  | some getStats =>
      let up := getStats s (uplinkRequest userEmailTag resetCounter)
      let down := getStats up.2 (downlinkRequest userEmailTag resetCounter)
      match down.1.err with
      | some e =>
          ({ uplink := statValue up.1, downlink := statValue down.1,
             err := some ("failed to get stats for " ++ userEmailTag ++
                          " (uplink or downlink): " ++ e) }, down.2)
      | none => ({ uplink := statValue up.1, downlink := statValue down.1, err := none }, down.2)

/-! ## The enforcement tick -/

/-- The limit in bytes the tick compares against:
`int64(user.TrafficLimitGB*1024*1024*1024)`. -/
def trafficLimitBytes (oor : Float64 → Int) (limitGB : Float64) : Int :=
  Float64.toInt64 oor limitGB.mul1024.mul1024.mul1024

/-- The account after the usage update (lines 301 to 307): the period's
traffic is added when it is positive. -/
def addTraffic (user : User) (uplink downlink : Int) : User :=
  if 0 < wrapInt64 (uplink + downlink) then
    { user with TrafficUsedBytes :=
        wrapInt64 (user.TrafficUsedBytes + wrapInt64 (uplink + downlink)) }
  else user

/-- The traffic test of line 310, on the account after the usage update. -/
def overTraffic (oor : Float64 → Int) (user : User) : Bool :=
  decide (trafficLimitBytes oor user.TrafficLimitGB ≤ user.TrafficUsedBytes)

/-- The time test of lines 319 to 321, on an account that is still active. -/
def expired (now : Time) (user : User) : Bool :=
  decide (0 < user.TimeLimitDays) &&
    Time.After now (Time.AddDate user.CreatedAt user.TimeLimitDays)

/-- What one pass through lines 301 to 328 decides for an account. -/
structure Verdict where
  user : User
  configChanged : Bool
  needsV2RayRestart : Bool
  deriving DecidableEq, Repr

/-- Lines 301 to 328 for one active account whose query succeeded: usage
update, traffic check, then the time check if the account is still active.
The two flags are the values the pass would give `configChanged` and
`needsV2RayRestart` had both been false before. -/
def enforce (oor : Float64 → Int) (now : Time) (user : User) (uplink downlink : Int) :
    Verdict :=
  let u1 := addTraffic user uplink downlink
  let grew := decide (0 < wrapInt64 (uplink + downlink))
  let u2 := if overTraffic oor u1 then { u1 with IsActive := false } else u1
  let late := u2.IsActive && expired now u2
  let u3 := if late then { u2 with IsActive := false } else u2
  { user := u3
    configChanged := grew || overTraffic oor u1 || late
    needsV2RayRestart := overTraffic oor u1 || late }

/-- The variables of one check cycle: the two flags, the map `usersToUpdate`
and the state of the stats gateway. -/
structure LoopState (σ : Type) where
  configChanged : Bool
  needsV2RayRestart : Bool
  usersToUpdate : UsersConfig
  gw : σ

/-- The variables as they are before the first iteration. -/
def LoopState.init {σ : Type} (s : σ) : LoopState σ :=
  { configChanged := false, needsV2RayRestart := false, usersToUpdate := [], gw := s }

/-- One iteration of `for userID, user := range currentUsersConfig`
(lines 284 to 330). The instant `time.Now().UTC()` of line 321 is read from
the world as it is after the query: `clock` of the state the gateway is left
in. -/
def loopBody {σ : Type} (getStats : StatsServiceClient σ) (oor : Float64 → Int)
    (clock : σ → Time) (st : LoopState σ) (entry : String × User) : LoopState σ :=
  if entry.2.IsActive = false then st
  else
    let q := queryV2RayStats (some getStats) st.gw ("user_" ++ entry.2.ID) true
    match q.1.err with
    | some _ => { st with gw := q.2 }
    | none =>
        let v := enforce oor (clock q.2) entry.2 q.1.uplink q.1.downlink
        { configChanged := st.configChanged || v.configChanged
          needsV2RayRestart := st.needsV2RayRestart || v.needsV2RayRestart
          usersToUpdate := UsersConfig.set st.usersToUpdate entry.1 v.user
          gw := q.2 }

/-- The whole `range` loop over the registry. -/
def tickLoop {σ : Type} (getStats : StatsServiceClient σ) (oor : Float64 → Int)
    (clock : σ → Time) (users : UsersConfig) (st : LoopState σ) : LoopState σ :=
  users.foldl (loopBody getStats oor clock) st

/-- The loop `for uid, u := range usersToUpdate { currentUsersConfig[uid] = u }`. -/
def applyUpdates (users usersToUpdate : UsersConfig) : UsersConfig :=
  usersToUpdate.foldl (fun m e => UsersConfig.set m e.1 e.2) users

/-- What a tick leaves behind: the registry, the map handed to
`saveUsersConfig` (if it was called), whether `handleRestartV2Ray` was
called, and the state of the stats gateway. -/
structure TickResult (σ : Type) where
  users : UsersConfig
  saved : Option UsersConfig
  restarted : Bool
  gw : σ

/-- One enforcement tick (lines 276 to 364): the loop, the write-back of
`usersToUpdate`, then, if `configChanged`, the copy `configToSave` handed to
`saveUsersConfig` and, if `needsV2RayRestart`, the call of
`handleRestartV2Ray`. Neither call's result changes the registry. -/
def tick {σ : Type} (getStats : StatsServiceClient σ) (oor : Float64 → Int)
    (clock : σ → Time) (users : UsersConfig) (s : σ) : TickResult σ :=
  let st := tickLoop getStats oor clock users (LoopState.init s)
  let users1 := applyUpdates users st.usersToUpdate
  if st.configChanged then
    { users := users1
      saved := some (applyUpdates [] users1)
      restarted := st.needsV2RayRestart
      gw := st.gw }
  else
    { users := users1, saved := none, restarted := false, gw := st.gw }

/-- A run of ticks, one per clock of the list, with no request in between. -/
def runTicks {σ : Type} (getStats : StatsServiceClient σ) (oor : Float64 → Int) :
    List (σ → Time) → UsersConfig → σ → UsersConfig × σ
  | [], users, s => (users, s)
  | clock :: rest, users, s =>
      runTicks getStats oor rest (tick getStats oor clock users s).users
        (tick getStats oor clock users s).gw

/-- The stats gateway `getStats` with a recorder in front: the state carries,
oldest first, every request received so far. -/
def recording {σ : Type} (getStats : StatsServiceClient σ) :
    StatsServiceClient (σ × List GetStatsRequest) :=
  fun s req => ((getStats s.1 req).1, ((getStats s.1 req).2, s.2 ++ [req]))

/-- The clock `clock` seen through the recorder. -/
def recordingClock {σ : Type} (clock : σ → Time) : σ × List GetStatsRequest → Time :=
  fun s => clock s.1

/-- A clock that shows the instant `t` whatever the state of the world. -/
def fixedClock {σ : Type} (t : Time) : σ → Time := fun _ => t

/-- The gateway state in which the loop of a tick reaches the entry that
follows the entries `pre`. -/
def gwAfter {σ : Type} (getStats : StatsServiceClient σ) (oor : Float64 → Int)
    (clock : σ → Time) (pre : UsersConfig) (s : σ) : σ :=
  (tickLoop getStats oor clock pre (LoopState.init s)).gw

/-- The answer `queryV2RayStats` gives, during a tick, for the account `user`
that the loop visits right after the entries `pre`. -/
def queryAt {σ : Type} (getStats : StatsServiceClient σ) (oor : Float64 → Int)
    (clock : σ → Time) (pre : UsersConfig) (s : σ) (user : User) : QueryResult :=
  (queryV2RayStats (some getStats) (gwAfter getStats oor clock pre s) ("user_" ++ user.ID)
    true).1

/-- The instant `time.Now().UTC()` read, during a tick, in the iteration for
the account `user` that the loop visits right after the entries `pre`. -/
def nowAt {σ : Type} (getStats : StatsServiceClient σ) (oor : Float64 → Int)
    (clock : σ → Time) (pre : UsersConfig) (s : σ) (user : User) : Time :=
  clock (queryV2RayStats (some getStats) (gwAfter getStats oor clock pre s)
    ("user_" ++ user.ID) true).2

/-- The record one iteration stores in `usersToUpdate` for an account met in
gateway state `s`, if it stores one. -/
def entryUpdate {σ : Type} (getStats : StatsServiceClient σ) (oor : Float64 → Int)
    (clock : σ → Time) (s : σ) (user : User) : Option Verdict :=
  if user.IsActive = false then none
  else
    match (queryV2RayStats (some getStats) s ("user_" ++ user.ID) true).1.err with
    | some _ => none
    | none =>
        some (enforce oor
          (clock (queryV2RayStats (some getStats) s ("user_" ++ user.ID) true).2) user
          (queryV2RayStats (some getStats) s ("user_" ++ user.ID) true).1.uplink
          (queryV2RayStats (some getStats) s ("user_" ++ user.ID) true).1.downlink)

/-! ## The V2Ray configuration and `generateV2RayConfig` -/

/-- The struct `APIConfig`. -/
structure APIConfig where
  Tag : String
  Services : List String
  deriving DecidableEq, Repr

/-- The struct `LevelPolicy`. -/
structure LevelPolicy where
  StatsUserUplink : Bool
  StatsUserDownlink : Bool
  deriving DecidableEq, Repr

/-- The struct `SystemPolicy`. -/
structure SystemPolicy where
  StatsInboundUplink : Bool
  StatsInboundDownlink : Bool
  deriving DecidableEq, Repr

/-- The struct `PolicyConfig`; the map `Levels` is an association list. -/
structure PolicyConfig where
  Levels : List (String × LevelPolicy)
  System : SystemPolicy
  deriving DecidableEq, Repr

/-- The struct `RoutingRule`; the field `Type` of the source is `RuleType`
here, and a nil slice is the empty list. -/
structure RoutingRule where
  RuleType : String
  InboundTag : List String
  OutboundTag : String
  Domain : List String
  Protocol : List String
  deriving DecidableEq, Repr

/-- The struct `RoutingConfig`. -/
structure RoutingConfig where
  Rules : List RoutingRule
  deriving DecidableEq, Repr

/-- The struct `LogEntry`. -/
structure LogEntry where
  Loglevel : String
  Access : String
  Error : String
  deriving DecidableEq, Repr

/-- The struct `Client`. -/
structure Client where
  ID : String
  AlterID : Int
  Email : String
  Level : Int
  deriving DecidableEq, Repr

/-- The struct `DefaultClient`. -/
structure DefaultClient where
  AlterID : Int
  Level : Int
  deriving DecidableEq, Repr

/-- The struct `InboundSettings`; a nil slice is the empty list. -/
structure InboundSettings where
  Clients : List Client
  Decryption : String
  Default : Option DefaultClient
  deriving DecidableEq, Repr

/-- The struct `WebSocketSettings`. -/
structure WebSocketSettings where
  Path : String
  Headers : List (String × String)
  deriving DecidableEq, Repr

/-- The struct `StreamSettings`. -/
structure StreamSettings where
  Network : String
  Security : String
  WSSettings : WebSocketSettings
  deriving DecidableEq, Repr

/-- The struct `Inbound`. -/
structure Inbound where
  Port : String
  Listen : String
  Protocol : String
  Settings : InboundSettings
  StreamSettings : StreamSettings
  Tag : String
  deriving DecidableEq, Repr

/-- The struct `OutboundSettings`, which has no field. -/
structure OutboundSettings where
  deriving DecidableEq, Repr

/-- The struct `Outbound`. -/
structure Outbound where
  Protocol : String
  Settings : OutboundSettings
  Tag : String
  deriving DecidableEq, Repr

/-- The struct `Config`. -/
structure Config where
  Log : LogEntry
  API : Option APIConfig
  Policy : Option PolicyConfig
  Routing : Option RoutingConfig
  Inbounds : List Inbound
  Outbounds : List Outbound
  deriving DecidableEq, Repr

/-- The client entry `generateV2RayConfig` builds for the identifier `id`:
`AlterID` 0, the stats tag `"user_" + id` as `Email`, and `userLevel` 0. -/
def clientFor (id : String) : Client :=
  { ID := id, AlterID := 0, Email := "user_" ++ id, Level := 0 }

/-- The loop of lines 704 to 714: the slice `v2rayClients` and the counter
`activeUsers` after the `range` over the snapshot. -/
def collectClients (users : UsersConfig) : List Client × Nat :=
  users.foldl
    (fun acc e => if e.2.IsActive = true then (acc.1 ++ [clientFor e.2.ID], acc.2 + 1) else acc)
    ([], 0)

/-- The slice `v2rayClients` as it goes into the configuration (lines 700 to
728); `defaultUserID` is the result of `uuid.NewString()`. -/
def v2rayClients (users : UsersConfig) (defaultUserID : String) : List Client :=
  if (collectClients users).2 = 0 then (collectClients users).1 ++ [clientFor defaultUserID]
  else (collectClients users).1

/-- The function `generateV2RayConfig`, up to the value `config` that is
handed to `json.MarshalIndent` (the bytes returned are its encoding);
`defaultUserID` is the result of `uuid.NewString()`. -/
def generateV2RayConfig (users : UsersConfig) (port : String) (defaultUserID : String) :
    Config :=
  { Log := { Loglevel := "warning", Access := "/dev/stdout", Error := "/dev/stderr" }
    API := some { Tag := "API", Services := ["StatsService"] }
    Policy := some
      { Levels := [("0", { StatsUserUplink := true, StatsUserDownlink := true })]
        System := { StatsInboundUplink := false, StatsInboundDownlink := false } }
    Routing := some
      { Rules := [{ RuleType := "field", InboundTag := ["API"], OutboundTag := "API",
                    Domain := [], Protocol := [] }] }
    Inbounds :=
      [{ Port := port, Listen := "", Protocol := "vmess"
         Settings := { Clients := v2rayClients users defaultUserID, Decryption := "",
                       Default := none }
         StreamSettings := { Network := "ws", Security := "none",
                             WSSettings := { Path := "/ws", Headers := [] } }
         Tag := "vmess-in" },
       { Port := "10085", Listen := "127.0.0.1", Protocol := "dokodemo-door"
         Settings := { Clients := [], Decryption := "", Default := none }
         StreamSettings := { Network := "", Security := "",
                             WSSettings := { Path := "", Headers := [] } }
         Tag := "API" }]
    Outbounds :=
      [{ Protocol := "freedom", Settings := {}, Tag := "direct-out" },
       { Protocol := "blackhole", Settings := {}, Tag := "API" }] }

/-- The protocol, the tag and the client list of every inbound. -/
def inboundClients (c : Config) : List (String × String × List Client) :=
  c.Inbounds.map (fun i => (i.Protocol, i.Tag, i.Settings.Clients))

/-- The active accounts of a snapshot, in the order of the loop. -/
def activeAccounts (users : UsersConfig) : List User :=
  (users.filter (fun e => e.2.IsActive)).map Prod.snd

/-- Some account is active in the registry `before` and inactive in the
registry `after`. -/
def someDeactivated (before after : UsersConfig) : Prop :=
  ∃ k u u', UsersConfig.get before k = some u ∧ UsersConfig.get after k = some u' ∧
    u.IsActive = true ∧ u'.IsActive = false

/-- The requests a tick sends for a registry, in the order of the loop: the
uplink and the downlink request of every active account, both with
`Reset = true`, and nothing for an inactive account. -/
def queriesOf : UsersConfig → List GetStatsRequest
  | [] => []
  | e :: rest =>
      if e.2.IsActive = false then queriesOf rest
      else uplinkRequest ("user_" ++ e.2.ID) true ::
        downlinkRequest ("user_" ++ e.2.ID) true :: queriesOf rest

/-- The requests with the counter names built from the `Email` of each client
entry, uplink then downlink, both with `Reset = true`. -/
def requestsFor : List Client → List GetStatsRequest
  | [] => []
  | c :: rest =>
      { Name := "user>>>" ++ c.Email ++ ">>>traffic>>>uplink", Reset := true } ::
      { Name := "user>>>" ++ c.Email ++ ">>>traffic>>>downlink", Reset := true } ::
      requestsFor rest

/-! ## The supervised process and `handleRestartV2Ray` -/

/-- The struct `os.Process`, as far as the program reads it. -/
structure OsProcess where
  Pid : Int
  deriving DecidableEq, Repr

/-- The struct `exec.Cmd`: the field `Process` is nil until `Start` succeeds. -/
structure Cmd where
  Process : Option OsProcess
  deriving DecidableEq, Repr

/-- The global variables `currentUsersConfig` and `v2rayCmd`. -/
structure Globals where
  currentUsersConfig : UsersConfig
  v2rayCmd : Option Cmd
  deriving DecidableEq, Repr

/-- What the operations outside the program answer during one call of
`handleRestartV2Ray`: `Process.Signal(os.Interrupt)`, `Process.Kill()`,
`json.MarshalIndent`, `ioutil.WriteFile`, `Cmd.Start()` of
`exec.Command(args...)`, and `uuid.NewString()`. An error is `some` message
(or `Except.error`). -/
structure OS where
  signal : OsProcess → Option String
  kill : OsProcess → Option String
  marshal : Config → Except String String
  writeFile : String → String → Option String
  start : List String → Except String OsProcess
  newUUID : String

/-- The operations the properties on ordering and locking speak about, as one
goroutine performs them: `configMutex.Lock`, `Unlock`, `RLock`, `RUnlock`,
`v2rayRestartMutex.Lock` and `Unlock`, a `GetStats` call, a call of
`saveUsersConfig`, `Process.Signal`, `Process.Kill`, `ioutil.WriteFile` and
`Cmd.Start`. -/
inductive Event where
  | lock
  | unlock
  | rlock
  | runlock
  | restartLock
  | restartUnlock
  | getStats (req : GetStatsRequest)
  | saveUsersConfig (users : UsersConfig)
  | signal (pid : Int)
  | kill (pid : Int)
  | writeFile (path : String) (data : String)
  | start (args : List String)
  deriving DecidableEq, Repr

/-- The function `generateV2RayConfig` with its two results: the encoding of
the configuration, or the error of `json.MarshalIndent`. -/
def generateV2RayConfigBytes (os : OS) (users : UsersConfig) (port : String) :
    Except String String :=
  match os.marshal (generateV2RayConfig users port os.newUUID) with
  | .error e => .error ("failed to marshal V2Ray config: " ++ e)
  | .ok b => .ok b

/-- Lines 823 to 842 of `handleRestartV2Ray`: the old process, if there is
one, is sent the interrupt signal and, if that fails, is killed; the results
are only logged. -/
def stopEvents (os : OS) (v2rayCmd : Option Cmd) : List Event :=
  match v2rayCmd with
  | none => []
  | some cmd =>
      match cmd.Process with
      | none => []
      | some p =>
          match os.signal p with
          | none => [Event.signal p.Pid]
          | some _ => [Event.signal p.Pid, Event.kill p.Pid]

/-- The results of `handleRestartV2Ray`: the error returned, the variable
`v2rayCmd` afterwards, and the operations performed. -/
structure RestartResult where
  err : Option String
  v2rayCmd : Option Cmd
  events : List Event
  deriving DecidableEq, Repr

/-- The function `handleRestartV2Ray`, called when the global variables are
`gl`: stop the old process, copy the registry under the read lock, generate
the configuration from the copy, write it to `/tmp/v2ray_config.json`, start
the new process and store it in `v2rayCmd`. The goroutine that waits for
the new process only logs. -/
def handleRestartV2Ray (os : OS) (port : String) (gl : Globals) : RestartResult :=
  let before := [Event.restartLock] ++ stopEvents os gl.v2rayCmd ++ [Event.rlock, Event.runlock]
  let usersToConfigure := applyUpdates [] gl.currentUsersConfig
  match generateV2RayConfigBytes os usersToConfigure port with
  | .error e =>
      { err := some ("failed to generate V2Ray config for restart: " ++ e)
        v2rayCmd := gl.v2rayCmd
        events := before ++ [Event.restartUnlock] }
  | .ok v2rayConfigBytes =>
      match os.writeFile "/tmp/v2ray_config.json" v2rayConfigBytes with
      | some e =>
          { err := some ("failed to write V2Ray config to /tmp/v2ray_config.json for restart: "
              ++ e)
            v2rayCmd := gl.v2rayCmd
            events := before ++
              [Event.writeFile "/tmp/v2ray_config.json" v2rayConfigBytes, Event.restartUnlock] }
      | none =>
          match os.start ["v2ray", "-config", "/tmp/v2ray_config.json"] with
          | .error e =>
              { err := some ("failed to start new V2Ray process: " ++ e)
                v2rayCmd := gl.v2rayCmd
                events := before ++
                  [Event.writeFile "/tmp/v2ray_config.json" v2rayConfigBytes,
                   Event.start ["v2ray", "-config", "/tmp/v2ray_config.json"],
                   Event.restartUnlock] }
          | .ok p =>
              { err := none
                v2rayCmd := some { Process := some p }
                events := before ++
                  [Event.writeFile "/tmp/v2ray_config.json" v2rayConfigBytes,
                   Event.start ["v2ray", "-config", "/tmp/v2ray_config.json"],
                   Event.restartUnlock] }

/-! ## The operations of a tick, in order -/

/-- The operations of one enforcement tick, in the order of the source:
`configMutex.Lock()` (line 277), the `GetStats` calls of the loop (lines 284
to 330, through `queryV2RayStats`), `configMutex.Unlock()` (line 345 or 362),
then, if `configChanged`, `saveUsersConfig` (line 347) and, if
`needsV2RayRestart`, `handleRestartV2Ray` (line 355), which finds the
registry as the tick left it. -/
def tickEvents {σ : Type} (getStats : StatsServiceClient σ) (oor : Float64 → Int)
    (clock : σ → Time) (os : OS) (port : String) (gl : Globals) (s : σ) : List Event :=
  [Event.lock] ++
    (tick (recording getStats) oor (recordingClock clock) gl.currentUsersConfig (s, [])).gw.2.map
      Event.getStats ++
    [Event.unlock] ++
    match (tick getStats oor clock gl.currentUsersConfig s).saved with
    | none => []
    | some configToSave =>
        Event.saveUsersConfig configToSave ::
          (if (tick getStats oor clock gl.currentUsersConfig s).restarted = true then
            (handleRestartV2Ray os port
              { currentUsersConfig := (tick getStats oor clock gl.currentUsersConfig s).users
                v2rayCmd := gl.v2rayCmd }).events
          else [])

/-- The operations of a trace that are performed while `configMutex` is held
(locked or read-locked); `held` tells whether it is held at the start. The
operations on the two mutexes themselves are left out. -/
def heldEvents : Bool → List Event → List Event
  | _, [] => []
  | _, Event.lock :: rest => heldEvents true rest
  | _, Event.rlock :: rest => heldEvents true rest
  | _, Event.unlock :: rest => heldEvents false rest
  | _, Event.runlock :: rest => heldEvents false rest
  | held, Event.restartLock :: rest => heldEvents held rest
  | held, Event.restartUnlock :: rest => heldEvents held rest
  | held, e :: rest => if held then e :: heldEvents held rest else heldEvents held rest

/-! ## The handlers of the administrative surface -/

/-- The comparison `x > 0` on `float64`. -/
def Float64.gtZero : Float64 → Bool
  | .finite m _ => decide (0 < m)
  | .inf negative => !negative
  | .nan => false

/-- The comparison `x <= 0` on `float64`. -/
def Float64.leZero : Float64 → Bool
  | .finite m _ => decide (m ≤ 0)
  | .inf negative => negative
  | .nan => false

/-- The map operation `delete(m, k)`. -/
def UsersConfig.erase (m : UsersConfig) (k : String) : UsersConfig :=
  m.filter (fun e => decide (e.1 ≠ k))

/-- What a handler leaves behind: the global variables, the HTTP status it
answers with, and the operations it performed. -/
structure HandlerResult where
  globals : Globals
  status : Nat
  events : List Event
  deriving DecidableEq, Repr

/-- The tail shared by the three mutating handlers, after the registry was
changed and copied: `saveUsersConfig`, and on an error status 500 and
`return`; then `handleRestartV2Ray`, and on an error status 500 and
`return`; else the status `okStatus`. -/
def saveAndRestart (save : UsersConfig → Option String) (os : OS) (port : String)
    (gl : Globals) (okStatus : Nat) : HandlerResult :=
  match save (applyUpdates [] gl.currentUsersConfig) with
  | some _ =>
      { globals := gl, status := 500
        events := [Event.lock, Event.unlock,
          Event.saveUsersConfig (applyUpdates [] gl.currentUsersConfig)] }
  | none =>
      match (handleRestartV2Ray os port gl).err with
      | some _ =>
          { globals := { currentUsersConfig := gl.currentUsersConfig
                         v2rayCmd := (handleRestartV2Ray os port gl).v2rayCmd }
            status := 500
            events := [Event.lock, Event.unlock,
              Event.saveUsersConfig (applyUpdates [] gl.currentUsersConfig)] ++
              (handleRestartV2Ray os port gl).events }
      | none =>
          { globals := { currentUsersConfig := gl.currentUsersConfig
                         v2rayCmd := (handleRestartV2Ray os port gl).v2rayCmd }
            status := okStatus
            events := [Event.lock, Event.unlock,
              Event.saveUsersConfig (applyUpdates [] gl.currentUsersConfig)] ++
              (handleRestartV2Ray os port gl).events }

/-- The handler of `createUserHandler`. `body` is the decoded request body
(`none` if decoding fails), `newID` the result of `uuid.NewString()`, `now`
the instant `time.Now().UTC()`, `save` the answer of `saveUsersConfig`. -/
def createUserHandler (save : UsersConfig → Option String) (os : OS) (port : String)
    (newID : String) (now : Time) (body : Option User) (gl : Globals) : HandlerResult :=
  match body with
  | none => { globals := gl, status := 400, events := [] }
  | some newUser =>
      if (newUser.TrafficLimitGB.leZero || decide (newUser.TimeLimitDays ≤ 0)) = true then
        { globals := gl, status := 400, events := [] }
      else
        saveAndRestart save os port
          { currentUsersConfig :=
              (UsersConfig.set gl.currentUsersConfig newID
                { newUser with ID := newID, CreatedAt := now, IsActive := true,
                               TrafficUsedBytes := 0 })
            v2rayCmd := gl.v2rayCmd }
          201

/-- Lines 489 to 506 of `updateUserHandler`: the record stored for an
existing account when the request body is `updatedUserData`. -/
def applyUserUpdate (existingUser updatedUserData : User) : User :=
  { existingUser with
    TrafficLimitGB :=
      if updatedUserData.TrafficLimitGB.gtZero = true then updatedUserData.TrafficLimitGB
      else existingUser.TrafficLimitGB
    TimeLimitDays :=
      if 0 < updatedUserData.TimeLimitDays then updatedUserData.TimeLimitDays
      else existingUser.TimeLimitDays
    IsActive := updatedUserData.IsActive
    TrafficUsedBytes :=
      if 0 ≤ updatedUserData.TrafficUsedBytes then updatedUserData.TrafficUsedBytes
      else existingUser.TrafficUsedBytes }

/-- The handler of `updateUserHandler`. `userID` is the query parameter `id`,
`body` the decoded request body (`none` if decoding fails). -/
def updateUserHandler (save : UsersConfig → Option String) (os : OS) (port : String)
    (userID : String) (body : Option User) (gl : Globals) : HandlerResult :=
  if userID = "" then { globals := gl, status := 400, events := [] }
  else
    match body with
    | none => { globals := gl, status := 400, events := [] }
    | some updatedUserData =>
        match UsersConfig.get gl.currentUsersConfig userID with
        | none => { globals := gl, status := 404, events := [Event.lock, Event.unlock] }
        | some existingUser =>
            saveAndRestart save os port
              { currentUsersConfig :=
                  (UsersConfig.set gl.currentUsersConfig userID
                    (applyUserUpdate existingUser updatedUserData))
                v2rayCmd := gl.v2rayCmd }
              200

/-- The handler of `deleteUserHandler`. `userID` is the query parameter
`id`. -/
def deleteUserHandler (save : UsersConfig → Option String) (os : OS) (port : String)
    (userID : String) (gl : Globals) : HandlerResult :=
  if userID = "" then { globals := gl, status := 400, events := [] }
  else
    match UsersConfig.get gl.currentUsersConfig userID with
    | none => { globals := gl, status := 404, events := [Event.lock, Event.unlock] }
    | some _ =>
        saveAndRestart save os port
          { currentUsersConfig := UsersConfig.erase gl.currentUsersConfig userID
            v2rayCmd := gl.v2rayCmd }
          204

/-! ## Gateways and accounts for concrete runs -/

/-- A stats gateway that replays a prepared list of replies, one per call, and
answers with an error once the list is used up. -/
def scripted : StatsServiceClient (List GetStatsReply) :=
  fun s _ =>
    match s with
    | [] => ({ resp := none, err := some "rpc error" }, [])
    | r :: rest => (r, rest)

/-- A successful reply that carries the counter value `v`. -/
def statReply (v : Int) : GetStatsReply :=
  { resp := some { Stat := some { Name := "", Value := v } }, err := none }

/-- A failed call: no response and an error. -/
def errReply : GetStatsReply := { resp := none, err := some "rpc error" }

/-- An active account with id `id`, created at instant 0. -/
def account (id : String) (limitGB : Float64) (days : Int) (used : Int) : User :=
  { ID := id, TrafficLimitGB := limitGB, TimeLimitDays := days, CreatedAt := 0,
    TrafficUsedBytes := used, IsActive := true }

/-- An account like `account`, but inactive. -/
def inactiveAccount (id : String) (limitGB : Float64) (days : Int) (used : Int) : User :=
  { account id limitGB days used with IsActive := false }

/-- A registry of two accounts with a limit of 1 GB and no time limit: `a`
is active, `b` is inactive. -/
def oneOfTwoActive : UsersConfig :=
  [("a", account "a" (.finite 1 0) 0 5), ("b", inactiveAccount "b" (.finite 1 0) 0 7)]

/-- A registry with the single active account `a`: limit 1 GB, no time limit,
`used` bytes used. -/
def single (used : Int) : UsersConfig := [("a", account "a" (.finite 1 0) 0 used)]

/-- A registry of two active accounts `a` and `b` with a limit of 1 GB and no
time limit. -/
def twoActive : UsersConfig :=
  [("a", account "a" (.finite 1 0) 0 5), ("b", account "b" (.finite 1 0) 0 7)]

/-- The stats tags of all client entries of a configuration, separated by
commas. -/
def clientEmails (c : Config) : String :=
  String.intercalate ","
    (c.Inbounds.flatMap (fun i => i.Settings.Clients.map (fun cl => cl.Email)))

/-- An operating system on which every call succeeds; the encoding of a
configuration is stood for by its `clientEmails`, the new process has pid 1
and the generated identifier is `g`. -/
def osOk : OS :=
  { signal := fun _ => none
    kill := fun _ => none
    marshal := fun c => .ok (clientEmails c)
    writeFile := fun _ _ => none
    start := fun _ => .ok { Pid := 1 }
    newUUID := "g" }

/-- Like `osOk`, but signalling and killing the old process both fail. -/
def osStopFails : OS :=
  { osOk with signal := fun _ => some "os: process already finished"
              kill := fun _ => some "os: process already finished" }

/-- Like `osOk`, but the new process cannot be started. -/
def osStartFails : OS :=
  { osOk with start := fun _ => .error "exec: v2ray: executable file not found" }

/-- A durable store that accepts every write. -/
def saveOk : UsersConfig → Option String := fun _ => none

/-- A durable store that refuses every write. -/
def saveFails : UsersConfig → Option String := fun _ => some "storage: bucket unavailable"

/-- Global variables with the registry `users` and a running process with
pid 7. -/
def running (users : UsersConfig) : Globals :=
  { currentUsersConfig := users, v2rayCmd := some { Process := some { Pid := 7 } } }

/-! ## Lemmas on maps -/

theorem get_set (m : UsersConfig) (k k' : String) (v : User) :
    UsersConfig.get (UsersConfig.set m k v) k' =
      if k = k' then some v else UsersConfig.get m k' := by
  induction m with
  | nil => simp [UsersConfig.set, UsersConfig.get]
  | cons hd tl ih =>
    obtain ⟨a, b⟩ := hd
    by_cases h : a = k
    · subst h
      by_cases h2 : a = k' <;> simp [UsersConfig.set, UsersConfig.get, h2]
    · simp only [UsersConfig.set, h, if_false, UsersConfig.get, ih]
      by_cases h2 : a = k'
      · have h3 : ¬ k = k' := fun h4 => h (h2.trans h4.symm)
        simp [h2, h3]
      · simp [h2]

theorem keys_set (m : UsersConfig) (k : String) (v : User) :
    UsersConfig.keys (UsersConfig.set m k v) =
      if k ∈ UsersConfig.keys m then UsersConfig.keys m else UsersConfig.keys m ++ [k] := by
  induction m with
  | nil => simp [UsersConfig.set, UsersConfig.keys]
  | cons hd tl ih =>
    obtain ⟨a, b⟩ := hd
    by_cases h : a = k
    · subst h
      simp [UsersConfig.set, UsersConfig.keys]
    · have h' : ¬ k = a := fun h4 => h h4.symm
      simp only [UsersConfig.keys] at ih
      by_cases h2 : k ∈ List.map Prod.fst tl
      · simp [UsersConfig.set, UsersConfig.keys, h, h', h2, ih]
      · simp [UsersConfig.set, UsersConfig.keys, h, h', h2, ih]

theorem wf_set (m : UsersConfig) (k : String) (v : User) (h : UsersConfig.WF m) :
    UsersConfig.WF (UsersConfig.set m k v) := by
  unfold UsersConfig.WF at *
  rw [keys_set]
  by_cases h2 : k ∈ UsersConfig.keys m
  · simpa [h2] using h
  · simp only [h2, if_false]
    rw [List.nodup_append]
    refine ⟨h, List.nodup_singleton k, ?_⟩
    intro a ha hb
    simp at hb
    exact h2 (hb ▸ ha)

theorem get_eq_none_iff (m : UsersConfig) (k : String) :
    UsersConfig.get m k = none ↔ k ∉ UsersConfig.keys m := by
  induction m with
  | nil => simp [UsersConfig.get, UsersConfig.keys]
  | cons hd tl ih =>
    obtain ⟨a, b⟩ := hd
    simp only [UsersConfig.keys] at ih
    by_cases h : a = k
    · simp [UsersConfig.get, UsersConfig.keys, h]
    · have h' : ¬ k = a := fun h4 => h h4.symm
      simp [UsersConfig.get, UsersConfig.keys, h, h', ih]

theorem get_mid (pre post : UsersConfig) (k : String) (u : User)
    (h : UsersConfig.WF (pre ++ (k, u) :: post)) :
    UsersConfig.get (pre ++ (k, u) :: post) k = some u := by
  induction pre with
  | nil => simp [UsersConfig.get]
  | cons hd tl ih =>
    obtain ⟨a, b⟩ := hd
    have hne : ¬ a = k := by
      intro hak
      simp [UsersConfig.WF, UsersConfig.keys, hak] at h
    have htl : UsersConfig.WF (tl ++ (k, u) :: post) := by
      simp only [UsersConfig.WF, UsersConfig.keys, List.cons_append, List.map_cons,
        List.nodup_cons] at h ⊢
      exact h.2
    simp [UsersConfig.get, hne, ih htl]

theorem mem_split_of_get (m : UsersConfig) (k : String) (u : User)
    (h : UsersConfig.get m k = some u) : ∃ pre post, m = pre ++ (k, u) :: post := by
  induction m with
  | nil => simp [UsersConfig.get] at h
  | cons hd tl ih =>
    obtain ⟨a, b⟩ := hd
    by_cases hak : a = k
    · simp [UsersConfig.get, hak] at h
      exact ⟨[], tl, by simp [hak, h]⟩
    · simp [UsersConfig.get, hak] at h
      obtain ⟨pre, post, hp⟩ := ih h
      exact ⟨(a, b) :: pre, post, by simp [hp]⟩

theorem applyUpdates_get_none (upd m : UsersConfig) (k : String)
    (h : UsersConfig.get upd k = none) :
    UsersConfig.get (applyUpdates m upd) k = UsersConfig.get m k := by
  induction upd generalizing m with
  | nil => rfl
  | cons hd tl ih =>
    obtain ⟨a, b⟩ := hd
    by_cases hak : a = k
    · simp [UsersConfig.get, hak] at h
    · simp only [UsersConfig.get, hak, if_false] at h
      simp only [applyUpdates, List.foldl_cons] at ih ⊢
      rw [ih _ h, get_set]
      simp [hak]

theorem applyUpdates_get_some (upd m : UsersConfig) (k : String) (v : User)
    (hwf : UsersConfig.WF upd) (h : UsersConfig.get upd k = some v) :
    UsersConfig.get (applyUpdates m upd) k = some v := by
  induction upd generalizing m with
  | nil => simp [UsersConfig.get] at h
  | cons hd tl ih =>
    obtain ⟨a, b⟩ := hd
    have hwf2 : a ∉ UsersConfig.keys tl ∧ UsersConfig.WF tl := by
      simpa [UsersConfig.WF, UsersConfig.keys] using hwf
    by_cases hak : a = k
    · simp only [UsersConfig.get, hak, if_true, Option.some.injEq] at h
      have hn : UsersConfig.get tl k = none := by
        rw [get_eq_none_iff]
        exact hak ▸ hwf2.1
      have := applyUpdates_get_none tl (UsersConfig.set m a b) k hn
      simp only [applyUpdates, List.foldl_cons] at this ⊢
      rw [this, get_set]
      simp [hak, h]
    · simp only [UsersConfig.get, hak, if_false] at h
      simp only [applyUpdates, List.foldl_cons] at ih ⊢
      exact ih _ hwf2.2 h

theorem applyUpdates_keys (upd m : UsersConfig) (k : String) :
    k ∈ UsersConfig.keys (applyUpdates m upd) ↔
      k ∈ UsersConfig.keys m ∨ k ∈ UsersConfig.keys upd := by
  induction upd generalizing m with
  | nil => simp [applyUpdates, UsersConfig.keys]
  | cons hd tl ih =>
    obtain ⟨a, b⟩ := hd
    simp only [applyUpdates, List.foldl_cons] at ih ⊢
    rw [ih, keys_set]
    by_cases h : a ∈ UsersConfig.keys m
    · simp only [h, if_true]
      simp only [UsersConfig.keys, List.map_cons, List.mem_cons]
      constructor
      · rintro (h1 | h1)
        · exact Or.inl h1
        · exact Or.inr (Or.inr h1)
      · rintro (h1 | h1 | h1)
        · exact Or.inl h1
        · exact Or.inl (h1 ▸ h)
        · exact Or.inr h1
    · simp only [h, if_false]
      simp only [UsersConfig.keys, List.map_cons, List.mem_cons, List.mem_append,
        List.mem_singleton]
      tauto

theorem applyUpdates_nil_eq (m : UsersConfig) (h : UsersConfig.WF m) :
    applyUpdates [] m = m := by
  have key : ∀ (l acc : UsersConfig), UsersConfig.WF (acc ++ l) →
      applyUpdates acc l = acc ++ l := by
    intro l
    induction l with
    | nil => intro acc _; simp [applyUpdates]
    | cons hd tl ih =>
      intro acc hwf
      obtain ⟨a, b⟩ := hd
      have hnot : a ∉ UsersConfig.keys acc := by
        intro hmem
        simp only [UsersConfig.WF, UsersConfig.keys, List.map_append, List.map_cons] at hwf
        rw [List.nodup_append] at hwf
        exact hwf.2.2 hmem (List.mem_cons_self _ _)
      have hset : UsersConfig.set acc a b = acc ++ [(a, b)] := by
        clear hwf ih
        induction acc with
        | nil => rfl
        | cons hd2 tl2 ih2 =>
          obtain ⟨c, d⟩ := hd2
          have hca : ¬ c = a := by
            intro hca
            apply hnot
            simp [UsersConfig.keys, hca]
          have hnot2 : a ∉ UsersConfig.keys tl2 := by
            intro hmem
            apply hnot
            simp only [UsersConfig.keys, List.map_cons, List.mem_cons] at hmem ⊢
            exact Or.inr hmem
          simp [UsersConfig.set, hca, ih2 hnot2]
      have hwf2 : UsersConfig.WF ((acc ++ [(a, b)]) ++ tl) := by
        simpa using hwf
      have := ih (acc ++ [(a, b)]) hwf2
      simp only [applyUpdates, List.foldl_cons] at this ⊢
      rw [hset, this]
      simp
  simpa using key m [] (by simpa using h)

/-! ## Lemmas on machine integers -/

theorem wrapInt64_of_isInt64 (x : Int) (h : isInt64 x) : wrapInt64 x = x := by
  unfold isInt64 at h
  unfold wrapInt64
  omega

theorem isInt64_wrapInt64 (x : Int) : isInt64 (wrapInt64 x) := by
  unfold isInt64 wrapInt64
  omega

/-- Where the seconds since year 1 of `t` plus `days` days fit `int64`,
`AddDate(0, 0, days)` adds `days` times 24 hours. -/
theorem addDate_of_isInt64 (t days : Int)
    (h : isInt64 (t / 1000000000 + 62135596800 + days * 86400)) :
    Time.AddDate t days = t + days * 86400000000000 := by
  unfold Time.AddDate unixToInternal
  rw [wrapInt64_of_isInt64 _ h]
  show ((t / 1000000000 + 62135596800 + days * 86400 - 62135596800) * 1000000000 +
    t % 1000000000 : Int) = t + days * 86400000000000
  omega

/-! ## Lemmas on the conversion of the limit -/

theorem truncPow2_natAbs (m e : Int) :
    truncPow2 (m.natAbs : Int) e = ((truncPow2 m e).natAbs : Int) := by
  unfold truncPow2
  by_cases h : 0 ≤ e
  · simp only [h, if_true]
    rw [Int.natAbs_mul, Int.natAbs_pow]
    push_cast
    simp
  · simp only [h, if_false]
    rw [Int.natAbs_tdiv, Int.natAbs_pow]
    have : ((2:Int)).natAbs = 2 := rfl
    rw [this]
    have h2 : ((2:Int) ^ (-e).toNat) = (((2:Nat) ^ (-e).toNat : Nat) : Int) := by push_cast; rfl
    rw [h2, ← Int.ofNat_tdiv]
    rfl

theorem truncPow2_mono (n : Nat) (e e' : Int) (h : e ≤ e') :
    truncPow2 (n : Int) e ≤ truncPow2 (n : Int) e' := by
  unfold truncPow2
  have hn : (0 : Int) ≤ n := Int.ofNat_nonneg n
  by_cases h1 : 0 ≤ e
  · have h2 : 0 ≤ e' := le_trans h1 h
    simp only [h1, h2, if_true]
    apply Int.mul_le_mul_of_nonneg_left _ hn
    exact pow_le_pow_right₀ (by norm_num) (Int.toNat_le_toNat h)
  · simp only [h1, if_false]
    have hp : ∀ k : Nat, (0 : Int) < 2 ^ k := fun k => by positivity
    by_cases h2 : 0 ≤ e'
    · simp only [h2, if_true]
      rw [Int.tdiv_eq_ediv hn (le_of_lt (hp _))]
      calc (n : Int) / 2 ^ (-e).toNat ≤ n := Int.ediv_le_self _ hn
        _ = n * 1 := by ring
        _ ≤ n * 2 ^ e'.toNat := Int.mul_le_mul_of_nonneg_left (by have := hp e'.toNat; omega) hn
    · simp only [h2, if_false]
      rw [Int.tdiv_eq_ediv hn (le_of_lt (hp _)), Int.tdiv_eq_ediv hn (le_of_lt (hp _))]
      have hk : (-e').toNat ≤ (-e).toNat := Int.toNat_le_toNat (by omega)
      have h3 : ((2:Int) ^ (-e).toNat) = (((2:Nat) ^ (-e).toNat : Nat) : Int) := by push_cast; rfl
      have h4 : ((2:Int) ^ (-e').toNat) = (((2:Nat) ^ (-e').toNat : Nat) : Int) := by push_cast; rfl
      rw [h3, h4]
      norm_cast
      exact Nat.div_le_div_left (Nat.pow_le_pow_right (by norm_num) hk) (by positivity)

theorem truncPow2_floor (m e : Int) (hm : 0 ≤ m) :
    truncPow2 m e = ⌊(m : ℚ) * 2 ^ e⌋ := by
  unfold truncPow2
  by_cases h : 0 ≤ e
  · simp only [h, if_true]
    obtain ⟨n, rfl⟩ := Int.eq_ofNat_of_zero_le h
    rw [zpow_natCast, Int.toNat_ofNat]
    have : (m : ℚ) * 2 ^ n = ((m * 2 ^ n : Int) : ℚ) := by push_cast; ring
    rw [this, Int.floor_intCast]
  · simp only [h, if_false]
    have hk : e = -(((-e).toNat : Int)) := by
      rw [Int.toNat_of_nonneg (by omega)]; ring
    have hp : (0 : Int) ≤ 2 ^ (-e).toNat := by positivity
    rw [Int.tdiv_eq_ediv hm hp]
    conv_rhs => rw [hk, zpow_neg, zpow_natCast]
    have : (m : ℚ) * (2 ^ (-e).toNat)⁻¹ = (m : ℚ) / ((2 ^ (-e).toNat : ℕ) : ℚ) := by
      push_cast; ring
    rw [this, Rat.floor_intCast_div_natCast]
    push_cast
    rfl

theorem truncPow2_neg (m e : Int) : truncPow2 (-m) e = -truncPow2 m e := by
  unfold truncPow2
  split
  · ring
  · rw [Int.neg_tdiv]

theorem truncPow2_ceil (m e : Int) (hm : m ≤ 0) :
    truncPow2 m e = ⌈(m : ℚ) * 2 ^ e⌉ := by
  have h := truncPow2_floor (-m) e (by omega)
  rw [truncPow2_neg] at h
  have h2 : ((-m : Int) : ℚ) * 2 ^ e = -((m : ℚ) * 2 ^ e) := by push_cast; ring
  rw [h2, Int.floor_neg] at h
  omega

/-- The value `truncPow2 m (e + 30)` is `L * 2^30` rounded toward zero, for
the number `L = m * 2^e`. -/
theorem truncPow2_scaled (m e : Int) :
    (0 ≤ m → truncPow2 m (e + 30) = ⌊(m : ℚ) * 2 ^ e * 2 ^ (30 : Nat)⌋) ∧
    (m ≤ 0 → truncPow2 m (e + 30) = ⌈(m : ℚ) * 2 ^ e * 2 ^ (30 : Nat)⌉) := by
  have h : (m : ℚ) * 2 ^ e * 2 ^ (30 : Nat) = (m : ℚ) * 2 ^ (e + 30) := by
    rw [zpow_add₀ (by norm_num : (2 : ℚ) ≠ 0), mul_assoc]
    norm_num
  rw [h]
  exact ⟨truncPow2_floor m (e + 30), truncPow2_ceil m (e + 30)⟩

theorem trafficLimitBytes_finite (oor : Float64 → Int) (m e : Int)
    (h : isInt64 (truncPow2 m (e + 30))) :
    trafficLimitBytes oor (.finite m e) = truncPow2 m (e + 30) := by
  have habs : truncPow2 (m.natAbs : Int) (e + 30) ≤ 2 ^ 63 := by
    rw [truncPow2_natAbs, Int.natCast_natAbs]
    unfold isInt64 at h
    exact abs_le.mpr ⟨h.1, le_of_lt h.2⟩
  have hbig : (2 : Int) ^ 63 < (float64Bound : Int) := by
    unfold float64Bound
    norm_num
  have h1 : ¬ (float64Bound : Int) ≤ truncPow2 (m.natAbs : Int) (e + 10) := by
    have := truncPow2_mono m.natAbs (e + 10) (e + 30) (by omega)
    omega
  have h2 : ¬ (float64Bound : Int) ≤ truncPow2 (m.natAbs : Int) (e + 10 + 10) := by
    have := truncPow2_mono m.natAbs (e + 10 + 10) (e + 30) (by omega)
    omega
  have h3 : ¬ (float64Bound : Int) ≤ truncPow2 (m.natAbs : Int) (e + 10 + 10 + 10) := by
    have := truncPow2_mono m.natAbs (e + 10 + 10 + 10) (e + 30) (by omega)
    omega
  have he : e + 10 + 10 + 10 = e + 30 := by omega
  unfold trafficLimitBytes
  simp only [Float64.mul1024, h1, h2, h3, if_false]
  rw [he]
  unfold isInt64 at h
  simp only [Float64.toInt64, h, and_self, if_true]

/-! ## Lemmas on the verdict for one account -/

theorem addTraffic_frame (u : User) (up down : Int) :
    (addTraffic u up down).ID = u.ID ∧
    (addTraffic u up down).TrafficLimitGB = u.TrafficLimitGB ∧
    (addTraffic u up down).TimeLimitDays = u.TimeLimitDays ∧
    (addTraffic u up down).CreatedAt = u.CreatedAt ∧
    (addTraffic u up down).IsActive = u.IsActive := by
  unfold addTraffic
  split <;> simp

theorem expired_addTraffic (now : Time) (u : User) (up down : Int) :
    expired now (addTraffic u up down) = expired now u := by
  obtain ⟨_, _, h3, h4, _⟩ := addTraffic_frame u up down
  simp [expired, h3, h4]

theorem enforce_user (oor : Float64 → Int) (now : Time) (u : User) (up down : Int) :
    (enforce oor now u up down).user =
      { addTraffic u up down with
        IsActive := u.IsActive && !(overTraffic oor (addTraffic u up down)) &&
          !(expired now u) } := by
  have hx := expired_addTraffic now u up down
  have ha := (addTraffic_frame u up down).2.2.2.2
  unfold enforce
  generalize addTraffic u up down = w at hx ha ⊢
  obtain ⟨w1, w2, w3, w4, w5, w6⟩ := w
  simp only at ha
  cases hb1 : overTraffic oor ⟨w1, w2, w3, w4, w5, w6⟩ <;> cases hb2 : expired now u <;>
    cases w6 <;> simp_all

theorem enforce_restart (oor : Float64 → Int) (now : Time) (u : User) (up down : Int) :
    (enforce oor now u up down).needsV2RayRestart =
      (overTraffic oor (addTraffic u up down) || (u.IsActive && expired now u)) := by
  have hx := expired_addTraffic now u up down
  have ha := (addTraffic_frame u up down).2.2.2.2
  unfold enforce
  by_cases ho : overTraffic oor (addTraffic u up down) = true
  · simp [ho]
  · have ho' : overTraffic oor (addTraffic u up down) = false := by simpa using ho
    simp [ho', hx, ha]

theorem enforce_changed (oor : Float64 → Int) (now : Time) (u : User) (up down : Int) :
    (enforce oor now u up down).configChanged =
      (decide (0 < wrapInt64 (up + down)) || (enforce oor now u up down).needsV2RayRestart) := by
  simp [enforce, Bool.or_assoc]

theorem entryUpdate_some_iff {σ : Type} (g : StatsServiceClient σ) (oor : Float64 → Int)
    (clock : σ → Time) (s : σ) (u : User) (v : Verdict) :
    entryUpdate g oor clock s u = some v ↔
      u.IsActive = true ∧
      (queryV2RayStats (some g) s ("user_" ++ u.ID) true).1.err = none ∧
      v = enforce oor (clock (queryV2RayStats (some g) s ("user_" ++ u.ID) true).2) u
            (queryV2RayStats (some g) s ("user_" ++ u.ID) true).1.uplink
            (queryV2RayStats (some g) s ("user_" ++ u.ID) true).1.downlink := by
  unfold entryUpdate
  by_cases ha : u.IsActive = false
  · simp [ha]
  · have ha' : u.IsActive = true := by simpa using ha
    rw [if_neg ha]
    cases hq : (queryV2RayStats (some g) s ("user_" ++ u.ID) true).1.err with
    | none => simp [ha', eq_comm]
    | some x => simp

/-! ## Lemmas on the loop of a tick -/

section Loop

variable {σ : Type} (g : StatsServiceClient σ) (oor : Float64 → Int) (clock : σ → Time)

theorem loopBody_inactive (st : LoopState σ) (e : String × User)
    (h : e.2.IsActive = false) : loopBody g oor clock st e = st := by
  simp [loopBody, h]

theorem entryUpdate_inactive (s : σ) (u : User) (h : u.IsActive = false) :
    entryUpdate g oor clock s u = none := by
  simp [entryUpdate, h]

theorem loopBody_none (st : LoopState σ) (e : String × User)
    (h : entryUpdate g oor clock st.gw e.2 = none) :
    (loopBody g oor clock st e).configChanged = st.configChanged ∧
    (loopBody g oor clock st e).needsV2RayRestart = st.needsV2RayRestart ∧
    (loopBody g oor clock st e).usersToUpdate = st.usersToUpdate := by
  unfold entryUpdate at h
  unfold loopBody
  by_cases ha : e.2.IsActive = false
  · simp [ha]
  · rw [if_neg ha] at h ⊢
    cases hq : (queryV2RayStats (some g) st.gw ("user_" ++ e.2.ID) true).1.err with
    | none => simp [hq] at h
    | some x => simp [hq]

theorem loopBody_some (st : LoopState σ) (e : String × User) (v : Verdict)
    (h : entryUpdate g oor clock st.gw e.2 = some v) :
    (loopBody g oor clock st e).configChanged = (st.configChanged || v.configChanged) ∧
    (loopBody g oor clock st e).needsV2RayRestart =
      (st.needsV2RayRestart || v.needsV2RayRestart) ∧
    (loopBody g oor clock st e).usersToUpdate = UsersConfig.set st.usersToUpdate e.1 v.user := by
  unfold entryUpdate at h
  unfold loopBody
  by_cases ha : e.2.IsActive = false
  · simp [ha] at h
  · rw [if_neg ha] at h ⊢
    cases hq : (queryV2RayStats (some g) st.gw ("user_" ++ e.2.ID) true).1.err with
    | none =>
      simp only [hq, Option.some.injEq] at h
      subst h
      simp [hq]
    | some x => simp [hq] at h

theorem tickLoop_cons (e : String × User) (l : UsersConfig) (st : LoopState σ) :
    tickLoop g oor clock (e :: l) st = tickLoop g oor clock l (loopBody g oor clock st e) := rfl

theorem tickLoop_append (l1 l2 : UsersConfig) (st : LoopState σ) :
    tickLoop g oor clock (l1 ++ l2) st = tickLoop g oor clock l2 (tickLoop g oor clock l1 st) := by
  simp [tickLoop, List.foldl_append]

theorem tickLoop_upd_notin (l : UsersConfig) (st : LoopState σ) (k : String)
    (h : k ∉ UsersConfig.keys l) :
    UsersConfig.get (tickLoop g oor clock l st).usersToUpdate k =
      UsersConfig.get st.usersToUpdate k := by
  induction l generalizing st with
  | nil => rfl
  | cons e tl ih =>
    have h1 : ¬ e.1 = k ∧ k ∉ UsersConfig.keys tl := by
      simp only [UsersConfig.keys, List.map_cons, List.mem_cons, not_or] at h ⊢
      exact ⟨fun h2 => h.1 h2.symm, h.2⟩
    rw [tickLoop_cons, ih _ h1.2]
    cases hu : entryUpdate g oor clock st.gw e.2 with
    | none => rw [(loopBody_none g oor clock st e hu).2.2]
    | some v =>
      rw [(loopBody_some g oor clock st e v hu).2.2, get_set]
      simp [h1.1]

theorem tickLoop_upd_wf (l : UsersConfig) (st : LoopState σ)
    (h : UsersConfig.WF st.usersToUpdate) :
    UsersConfig.WF (tickLoop g oor clock l st).usersToUpdate := by
  induction l generalizing st with
  | nil => exact h
  | cons e tl ih =>
    rw [tickLoop_cons]
    apply ih
    cases hu : entryUpdate g oor clock st.gw e.2 with
    | none => rw [(loopBody_none g oor clock st e hu).2.2]; exact h
    | some v =>
      rw [(loopBody_some g oor clock st e v hu).2.2]
      exact wf_set _ _ _ h

theorem tickLoop_upd_keys (l : UsersConfig) (st : LoopState σ) (k : String)
    (h : k ∈ UsersConfig.keys (tickLoop g oor clock l st).usersToUpdate) :
    k ∈ UsersConfig.keys st.usersToUpdate ∨ k ∈ UsersConfig.keys l := by
  by_cases hk : k ∈ UsersConfig.keys l
  · exact Or.inr hk
  · left
    have := tickLoop_upd_notin g oor clock l st k hk
    by_contra hc
    rw [← get_eq_none_iff] at hc
    rw [hc, get_eq_none_iff] at this
    exact this h

theorem wf_mid {pre post : UsersConfig} {k : String} {u : User}
    (h : UsersConfig.WF (pre ++ (k, u) :: post)) :
    k ∉ UsersConfig.keys pre ∧ k ∉ UsersConfig.keys post := by
  simp only [UsersConfig.WF, UsersConfig.keys, List.map_append, List.map_cons] at h ⊢
  rw [List.nodup_append] at h
  refine ⟨fun hm => h.2.2 hm (List.mem_cons_self _ _), ?_⟩
  exact (List.nodup_cons.mp h.2.1).1

theorem tickLoop_upd_mid (pre post : UsersConfig) (k : String) (u : User) (s : σ)
    (h : UsersConfig.WF (pre ++ (k, u) :: post)) :
    UsersConfig.get
        (tickLoop g oor clock (pre ++ (k, u) :: post) (LoopState.init s)).usersToUpdate k =
      (entryUpdate g oor clock (gwAfter g oor clock pre s) u).map Verdict.user := by
  obtain ⟨h1, h2⟩ := wf_mid h
  rw [tickLoop_append, tickLoop_cons, tickLoop_upd_notin g oor clock post _ k h2]
  have h3 := tickLoop_upd_notin g oor clock pre (LoopState.init s) k h1
  unfold gwAfter
  cases hu : entryUpdate g oor clock (tickLoop g oor clock pre (LoopState.init s)).gw u with
  | none =>
    rw [(loopBody_none g oor clock _ (k, u) hu).2.2, h3]
    rfl
  | some v =>
    rw [(loopBody_some g oor clock _ (k, u) v hu).2.2, get_set]
    simp

theorem tick_users (users : UsersConfig) (s : σ) :
    (tick g oor clock users s).users =
      applyUpdates users (tickLoop g oor clock users (LoopState.init s)).usersToUpdate := by
  unfold tick
  by_cases h : (tickLoop g oor clock users (LoopState.init s)).configChanged = true
  · simp [h]
  · simp [h]

theorem tick_gw (users : UsersConfig) (s : σ) :
    (tick g oor clock users s).gw = gwAfter g oor clock users s := by
  unfold tick gwAfter
  by_cases h : (tickLoop g oor clock users (LoopState.init s)).configChanged = true
  · simp [h]
  · simp [h]

/-- After a tick the registry holds, for the account visited after `pre`,
the record its own iteration stored, and the old record if it stored none. -/
theorem tick_get_mid (pre post : UsersConfig) (k : String) (u : User) (s : σ)
    (h : UsersConfig.WF (pre ++ (k, u) :: post)) :
    UsersConfig.get (tick g oor clock (pre ++ (k, u) :: post) s).users k =
      some (((entryUpdate g oor clock (gwAfter g oor clock pre s) u).map Verdict.user).getD u) := by
  rw [tick_users]
  have h1 := tickLoop_upd_mid g oor clock pre post k u s h
  cases hu : entryUpdate g oor clock (gwAfter g oor clock pre s) u with
  | none =>
    rw [hu] at h1
    rw [applyUpdates_get_none _ _ _ h1, get_mid pre post k u h]
    rfl
  | some v =>
    rw [hu] at h1
    rw [applyUpdates_get_some _ _ _ v.user
      (tickLoop_upd_wf g oor clock _ _ (by simp [LoopState.init, UsersConfig.WF, UsersConfig.keys]))
      h1]
    rfl

theorem tick_keys (users : UsersConfig) (s : σ) (k : String) :
    k ∈ UsersConfig.keys (tick g oor clock users s).users ↔ k ∈ UsersConfig.keys users := by
  rw [tick_users, applyUpdates_keys]
  constructor
  · rintro (h | h)
    · exact h
    · rcases tickLoop_upd_keys g oor clock users _ k h with h2 | h2
      · simp [LoopState.init, UsersConfig.keys] at h2
      · exact h2
  · exact Or.inl

theorem tickLoop_changed (l : UsersConfig) (st : LoopState σ) :
    (tickLoop g oor clock l st).configChanged = true ↔
      st.configChanged = true ∨
      ∃ pre k u post v, l = pre ++ (k, u) :: post ∧
        entryUpdate g oor clock (tickLoop g oor clock pre st).gw u = some v ∧
        v.configChanged = true := by
  induction l generalizing st with
  | nil => simp [tickLoop]
  | cons e tl ih =>
    rw [tickLoop_cons, ih]
    constructor
    · rintro (h | ⟨pre, k, u, post, v, h1, h2, h3⟩)
      · cases hu : entryUpdate g oor clock st.gw e.2 with
        | none =>
          rw [(loopBody_none g oor clock st e hu).1] at h
          exact Or.inl h
        | some v =>
          rw [(loopBody_some g oor clock st e v hu).1, Bool.or_eq_true] at h
          rcases h with h | h
          · exact Or.inl h
          · exact Or.inr ⟨[], e.1, e.2, tl, v, rfl, hu, h⟩
      · exact Or.inr ⟨e :: pre, k, u, post, v, by simp [h1], h2, h3⟩
    · rintro (h | ⟨pre, k, u, post, v, h1, h2, h3⟩)
      · left
        cases hu : entryUpdate g oor clock st.gw e.2 with
        | none => rw [(loopBody_none g oor clock st e hu).1]; exact h
        | some v => rw [(loopBody_some g oor clock st e v hu).1, h]; rfl
      · cases pre with
        | nil =>
          simp only [List.nil_append, List.cons.injEq] at h1
          obtain ⟨h1a, h1b⟩ := h1
          subst h1a
          left
          have h2' : entryUpdate g oor clock st.gw (k, u).2 = some v := h2
          rw [(loopBody_some g oor clock st (k, u) v h2').1, h3]
          simp
        | cons hd pre2 =>
          simp only [List.cons_append, List.cons.injEq] at h1
          obtain ⟨h1a, h1b⟩ := h1
          subst h1a
          exact Or.inr ⟨pre2, k, u, post, v, h1b, h2, h3⟩

theorem tickLoop_restart (l : UsersConfig) (st : LoopState σ) :
    (tickLoop g oor clock l st).needsV2RayRestart = true ↔
      st.needsV2RayRestart = true ∨
      ∃ pre k u post v, l = pre ++ (k, u) :: post ∧
        entryUpdate g oor clock (tickLoop g oor clock pre st).gw u = some v ∧
        v.needsV2RayRestart = true := by
  induction l generalizing st with
  | nil => simp [tickLoop]
  | cons e tl ih =>
    rw [tickLoop_cons, ih]
    constructor
    · rintro (h | ⟨pre, k, u, post, v, h1, h2, h3⟩)
      · cases hu : entryUpdate g oor clock st.gw e.2 with
        | none =>
          rw [(loopBody_none g oor clock st e hu).2.1] at h
          exact Or.inl h
        | some v =>
          rw [(loopBody_some g oor clock st e v hu).2.1, Bool.or_eq_true] at h
          rcases h with h | h
          · exact Or.inl h
          · exact Or.inr ⟨[], e.1, e.2, tl, v, rfl, hu, h⟩
      · exact Or.inr ⟨e :: pre, k, u, post, v, by simp [h1], h2, h3⟩
    · rintro (h | ⟨pre, k, u, post, v, h1, h2, h3⟩)
      · left
        cases hu : entryUpdate g oor clock st.gw e.2 with
        | none => rw [(loopBody_none g oor clock st e hu).2.1]; exact h
        | some v => rw [(loopBody_some g oor clock st e v hu).2.1, h]; rfl
      · cases pre with
        | nil =>
          simp only [List.nil_append, List.cons.injEq] at h1
          obtain ⟨h1a, h1b⟩ := h1
          subst h1a
          left
          have h2' : entryUpdate g oor clock st.gw (k, u).2 = some v := h2
          rw [(loopBody_some g oor clock st (k, u) v h2').2.1, h3]
          simp
        | cons hd pre2 =>
          simp only [List.cons_append, List.cons.injEq] at h1
          obtain ⟨h1a, h1b⟩ := h1
          subst h1a
          exact Or.inr ⟨pre2, k, u, post, v, h1b, h2, h3⟩

/-- The tick saves exactly when some iteration stored a verdict that sets
`configChanged`. -/
theorem tick_saved_iff (users : UsersConfig) (s : σ) :
    (tick g oor clock users s).saved.isSome = true ↔
      ∃ pre k u post v, users = pre ++ (k, u) :: post ∧
        entryUpdate g oor clock (gwAfter g oor clock pre s) u = some v ∧
        v.configChanged = true := by
  have h := tickLoop_changed g oor clock users (LoopState.init s)
  simp only [LoopState.init, Bool.false_eq_true, false_or] at h
  unfold gwAfter
  simp only [LoopState.init]
  rw [← h]
  unfold tick
  by_cases hc : (tickLoop g oor clock users (LoopState.init s)).configChanged = true
  · simp only [LoopState.init] at hc
    simp [LoopState.init, hc]
  · simp only [LoopState.init] at hc
    simp [LoopState.init, hc]

/-- The tick restarts exactly when some iteration stored a verdict that sets
`needsV2RayRestart`. -/
theorem tick_restarted_iff (users : UsersConfig) (s : σ) :
    (tick g oor clock users s).restarted = true ↔
      ∃ pre k u post v, users = pre ++ (k, u) :: post ∧
        entryUpdate g oor clock (gwAfter g oor clock pre s) u = some v ∧
        v.needsV2RayRestart = true := by
  have h := tickLoop_restart g oor clock users (LoopState.init s)
  have hc := tickLoop_changed g oor clock users (LoopState.init s)
  simp only [LoopState.init, Bool.false_eq_true, false_or] at h hc
  unfold gwAfter
  simp only [LoopState.init]
  rw [← h]
  unfold tick
  by_cases hcc : (tickLoop g oor clock users (LoopState.init s)).configChanged = true
  · simp only [LoopState.init] at hcc
    simp [LoopState.init, hcc]
  · simp only [LoopState.init] at hcc
    simp only [LoopState.init, hcc]
    simp only [Bool.false_eq_true, if_false, false_iff]
    intro hr
    apply hcc
    rw [hc]
    rw [h] at hr
    obtain ⟨pre, k, u, post, v, h1, h2, h3⟩ := hr
    refine ⟨pre, k, u, post, v, h1, h2, ?_⟩
    obtain ⟨_, _, hv⟩ := (entryUpdate_some_iff g oor clock _ u v).mp h2
    rw [hv, enforce_changed]
    rw [hv] at h3
    simp [h3]

end Loop

section Account

variable {σ : Type} (g : StatsServiceClient σ) (oor : Float64 → Int) (clock : σ → Time)

theorem tick_get_ok (pre post : UsersConfig) (k : String) (u : User) (s : σ)
    (hwf : UsersConfig.WF (pre ++ (k, u) :: post)) (hact : u.IsActive = true)
    (hq : (queryAt g oor clock pre s u).err = none) :
    UsersConfig.get (tick g oor clock (pre ++ (k, u) :: post) s).users k =
      some (enforce oor (nowAt g oor clock pre s u) u (queryAt g oor clock pre s u).uplink
        (queryAt g oor clock pre s u).downlink).user := by
  rw [tick_get_mid g oor clock pre post k u s hwf]
  have h : entryUpdate g oor clock (gwAfter g oor clock pre s) u =
      some (enforce oor (nowAt g oor clock pre s u) u (queryAt g oor clock pre s u).uplink
        (queryAt g oor clock pre s u).downlink) := by
    rw [entryUpdate_some_iff]
    exact ⟨hact, hq, rfl⟩
  rw [h]
  rfl

theorem tick_get_err (pre post : UsersConfig) (k : String) (u : User) (s : σ)
    (hwf : UsersConfig.WF (pre ++ (k, u) :: post))
    (hq : (queryAt g oor clock pre s u).err ≠ none) :
    UsersConfig.get (tick g oor clock (pre ++ (k, u) :: post) s).users k = some u := by
  rw [tick_get_mid g oor clock pre post k u s hwf]
  have h : entryUpdate g oor clock (gwAfter g oor clock pre s) u = none := by
    cases hu : entryUpdate g oor clock (gwAfter g oor clock pre s) u with
    | none => rfl
    | some v =>
      rw [entryUpdate_some_iff] at hu
      exact absurd hu.2.1 hq
  rw [h]
  rfl

theorem tick_get_inactive (users : UsersConfig) (k : String) (u : User) (s : σ)
    (hwf : UsersConfig.WF users) (hget : UsersConfig.get users k = some u)
    (hact : u.IsActive = false) :
    UsersConfig.get (tick g oor clock users s).users k = some u := by
  obtain ⟨pre, post, rfl⟩ := mem_split_of_get users k u hget
  rw [tick_get_mid g oor clock pre post k u s hwf, entryUpdate_inactive g oor clock _ u hact]
  rfl

end Account

section Outcome

variable {σ : Type} (g : StatsServiceClient σ) (oor : Float64 → Int) (clock : σ → Time)

theorem applyUpdates_wf (upd m : UsersConfig) (h : UsersConfig.WF m) :
    UsersConfig.WF (applyUpdates m upd) := by
  induction upd generalizing m with
  | nil => exact h
  | cons hd tl ih =>
    simp only [applyUpdates, List.foldl_cons] at ih ⊢
    exact ih _ (wf_set _ _ _ h)

theorem tick_users_wf (users : UsersConfig) (s : σ) (h : UsersConfig.WF users) :
    UsersConfig.WF (tick g oor clock users s).users := by
  rw [tick_users]
  exact applyUpdates_wf _ _ h

theorem tick_saved (users : UsersConfig) (s : σ) (h : UsersConfig.WF users) :
    (tick g oor clock users s).saved =
      if (tick g oor clock users s).saved.isSome = true then some (tick g oor clock users s).users
      else none := by
  have hwf := tick_users_wf g oor clock users s h
  rw [tick_users] at hwf
  unfold tick
  by_cases hc : (tickLoop g oor clock users (LoopState.init s)).configChanged = true
  · simp [hc, applyUpdates_nil_eq _ hwf]
  · simp [hc]

theorem tick_restarted_saved (users : UsersConfig) (s : σ)
    (h : (tick g oor clock users s).restarted = true) :
    (tick g oor clock users s).saved.isSome = true := by
  unfold tick at h ⊢
  by_cases hc : (tickLoop g oor clock users (LoopState.init s)).configChanged = true
  · simp [hc]
  · simp [hc] at h

theorem enforce_inactive_iff (now : Time) (u : User) (up down : Int) (h : u.IsActive = true) :
    (enforce oor now u up down).user.IsActive = false ↔
      (enforce oor now u up down).needsV2RayRestart = true := by
  rw [enforce_user, enforce_restart]
  simp only [h, Bool.true_and]
  cases overTraffic oor (addTraffic u up down) <;> cases expired now u <;> simp

/-- A restart is called exactly when some account was deactivated. -/
theorem tick_restarted_iff_deactivated (users : UsersConfig) (s : σ)
    (hwf : UsersConfig.WF users) :
    (tick g oor clock users s).restarted = true ↔
      someDeactivated users (tick g oor clock users s).users := by
  rw [tick_restarted_iff]
  constructor
  · rintro ⟨pre, k, u, post, v, rfl, h2, h3⟩
    obtain ⟨ha, _, hv⟩ := (entryUpdate_some_iff g oor clock _ u v).mp h2
    refine ⟨k, u, v.user, get_mid pre post k u hwf, ?_, ha, ?_⟩
    · rw [tick_get_mid g oor clock pre post k u s hwf, h2]
      rfl
    · rw [hv, enforce_inactive_iff oor _ u _ _ ha, ← hv]
      exact h3
  · rintro ⟨k, u, u', h1, h2, h3, h4⟩
    obtain ⟨pre, post, rfl⟩ := mem_split_of_get users k u h1
    rw [tick_get_mid g oor clock pre post k u s hwf] at h2
    cases hu : entryUpdate g oor clock (gwAfter g oor clock pre s) u with
    | none =>
      rw [hu] at h2
      simp only [Option.map_none', Option.getD_none, Option.some.injEq] at h2
      rw [← h2, h3] at h4
      exact absurd h4 (by simp)
    | some v =>
      rw [hu] at h2
      simp only [Option.map_some', Option.getD_some, Option.some.injEq] at h2
      obtain ⟨ha, _, hv⟩ := (entryUpdate_some_iff g oor clock _ u v).mp hu
      refine ⟨pre, k, u, post, v, rfl, hu, ?_⟩
      rw [← h2, hv, enforce_inactive_iff oor _ u _ _ ha, ← hv] at h4
      exact h4

/-- The tick saves exactly when, for some active account whose query
succeeded, the period's traffic is positive or the account was deactivated. -/
theorem tick_saved_iff_changed (users : UsersConfig) (s : σ) (hwf : UsersConfig.WF users) :
    (tick g oor clock users s).saved.isSome = true ↔
      ∃ pre k u post, users = pre ++ (k, u) :: post ∧ u.IsActive = true ∧
        (queryAt g oor clock pre s u).err = none ∧
        (0 < wrapInt64 ((queryAt g oor clock pre s u).uplink +
            (queryAt g oor clock pre s u).downlink) ∨
          ∃ u', UsersConfig.get (tick g oor clock users s).users k = some u' ∧
            u'.IsActive = false) := by
  rw [tick_saved_iff]
  constructor
  · rintro ⟨pre, k, u, post, v, rfl, h2, h3⟩
    obtain ⟨ha, hq, hv⟩ := (entryUpdate_some_iff g oor clock _ u v).mp h2
    refine ⟨pre, k, u, post, rfl, ha, hq, ?_⟩
    rw [hv, enforce_changed, Bool.or_eq_true] at h3
    rcases h3 with h3 | h3
    · left
      exact of_decide_eq_true h3
    · right
      refine ⟨v.user, ?_, ?_⟩
      · rw [tick_get_mid g oor clock pre post k u s hwf, h2]
        rfl
      · rw [hv, enforce_inactive_iff oor _ u _ _ ha]
        exact h3
  · rintro ⟨pre, k, u, post, rfl, ha, hq, h3⟩
    have hu : entryUpdate g oor clock (gwAfter g oor clock pre s) u =
        some (enforce oor (nowAt g oor clock pre s u) u (queryAt g oor clock pre s u).uplink
          (queryAt g oor clock pre s u).downlink) := by
      rw [entryUpdate_some_iff]
      exact ⟨ha, hq, rfl⟩
    refine ⟨pre, k, u, post, _, rfl, hu, ?_⟩
    rw [enforce_changed, Bool.or_eq_true]
    rcases h3 with h3 | ⟨u', h4, h5⟩
    · left
      exact decide_eq_true h3
    · right
      rw [tick_get_ok g oor clock pre post k u s hwf ha hq] at h4
      simp only [Option.some.injEq] at h4
      rw [← h4, enforce_inactive_iff oor _ u _ _ ha] at h5
      exact h5

/-- A change of an account's usage is saved. -/
theorem tick_usage_changed_saved (users : UsersConfig) (s : σ) (hwf : UsersConfig.WF users)
    (k : String) (u u' : User) (h1 : UsersConfig.get users k = some u)
    (h2 : UsersConfig.get (tick g oor clock users s).users k = some u')
    (h3 : u'.TrafficUsedBytes ≠ u.TrafficUsedBytes) :
    (tick g oor clock users s).saved.isSome = true := by
  rw [tick_saved_iff_changed g oor clock users s hwf]
  obtain ⟨pre, post, rfl⟩ := mem_split_of_get users k u h1
  rw [tick_get_mid g oor clock pre post k u s hwf] at h2
  cases hu : entryUpdate g oor clock (gwAfter g oor clock pre s) u with
  | none =>
    rw [hu] at h2
    simp only [Option.map_none', Option.getD_none, Option.some.injEq] at h2
    exact absurd (by rw [h2]) h3
  | some v =>
    rw [hu] at h2
    simp only [Option.map_some', Option.getD_some, Option.some.injEq] at h2
    obtain ⟨ha, hq, hv⟩ := (entryUpdate_some_iff g oor clock _ u v).mp hu
    refine ⟨pre, k, u, post, rfl, ha, hq, Or.inl ?_⟩
    by_contra hpos
    apply h3
    rw [← h2, hv, enforce_user]
    show (addTraffic u _ _).TrafficUsedBytes = _
    unfold addTraffic
    unfold queryAt at hpos
    rw [if_neg hpos]

/-- The record of an account after a tick, from its own record and the
answer to its own query. -/
theorem tick_get_own (pre post : UsersConfig) (k : String) (u : User) (s : σ)
    (hwf : UsersConfig.WF (pre ++ (k, u) :: post)) :
    UsersConfig.get (tick g oor clock (pre ++ (k, u) :: post) s).users k =
      some (if u.IsActive = true ∧ (queryAt g oor clock pre s u).err = none then
        (enforce oor (nowAt g oor clock pre s u) u (queryAt g oor clock pre s u).uplink
          (queryAt g oor clock pre s u).downlink).user
        else u) := by
  by_cases h : u.IsActive = true ∧ (queryAt g oor clock pre s u).err = none
  · rw [if_pos h]
    exact tick_get_ok g oor clock pre post k u s hwf h.1 h.2
  · rw [if_neg h]
    by_cases ha : u.IsActive = true
    · exact tick_get_err g oor clock pre post k u s hwf (fun hq => h ⟨ha, hq⟩)
    · exact tick_get_inactive g oor clock _ k u s hwf (get_mid pre post k u hwf) (by simpa using ha)

/-- An active account whose query succeeds with positive traffic and which
crosses no limit gets the traffic added and stays active. -/
theorem enforce_quiet (now : Time) (u : User) (up down : Int) (ha : u.IsActive = true)
    (ho : overTraffic oor (addTraffic u up down) = false) (hx : expired now u = false) :
    (enforce oor now u up down).user = addTraffic u up down := by
  rw [enforce_user]
  have hA := (addTraffic_frame u up down).2.2.2.2
  rw [ha] at hA
  generalize addTraffic u up down = w at ho hA ⊢
  obtain ⟨w1, w2, w3, w4, w5, w6⟩ := w
  simp only at hA
  subst hA
  simp [ha, ho, hx]

/-- A registry of two accounts that are both active after the tick was not
restarted. -/
theorem tick_two_quiet (x y : String) (X Y X' Y' : User) (s : σ)
    (hwf : UsersConfig.WF [(x, X), (y, Y)])
    (hx : UsersConfig.get (tick g oor clock [(x, X), (y, Y)] s).users x = some X')
    (hy : UsersConfig.get (tick g oor clock [(x, X), (y, Y)] s).users y = some Y')
    (hX : X'.IsActive = true) (hY : Y'.IsActive = true) :
    (tick g oor clock [(x, X), (y, Y)] s).restarted = false := by
  have hne : ¬ (tick g oor clock [(x, X), (y, Y)] s).restarted = true := by
    rw [tick_restarted_iff_deactivated g oor clock _ s hwf]
    rintro ⟨k, u, u', h1, h2, h3, h4⟩
    simp only [UsersConfig.get] at h1
    by_cases hk : x = k
    · subst hk
      rw [hx] at h2
      simp only [Option.some.injEq] at h2
      rw [← h2, hX] at h4
      exact absurd h4 (by simp)
    · rw [if_neg hk] at h1
      by_cases hk2 : y = k
      · subst hk2
        rw [hy] at h2
        simp only [Option.some.injEq] at h2
        rw [← h2, hY] at h4
        exact absurd h4 (by simp)
      · rw [if_neg hk2] at h1
        exact absurd h1 (by simp)
  simpa using hne

end Outcome

/-! ## Lemmas on the recorded requests -/

section Recording

variable {σ : Type} (g : StatsServiceClient σ) (oor : Float64 → Int) (clock : σ → Time)

theorem query_recording (s : σ) (l : List GetStatsRequest) (tag : String) (r : Bool) :
    queryV2RayStats (some (recording g)) (s, l) tag r =
      ((queryV2RayStats (some g) s tag r).1,
        ((queryV2RayStats (some g) s tag r).2,
          l ++ [uplinkRequest tag r, downlinkRequest tag r])) := by
  unfold queryV2RayStats recording
  simp only
  cases (g (g s (uplinkRequest tag r)).2 (downlinkRequest tag r)).1.err <;> simp

/-- The loop run against the recording gateway: same flags, same updates,
same gateway state, and the record grows by `queriesOf`. -/
theorem tickLoop_recording (l : UsersConfig) (st : LoopState σ) (log : List GetStatsRequest) :
    tickLoop (recording g) oor (recordingClock clock) l
        { configChanged := st.configChanged, needsV2RayRestart := st.needsV2RayRestart,
          usersToUpdate := st.usersToUpdate, gw := (st.gw, log) } =
      { configChanged := (tickLoop g oor clock l st).configChanged,
        needsV2RayRestart := (tickLoop g oor clock l st).needsV2RayRestart,
        usersToUpdate := (tickLoop g oor clock l st).usersToUpdate,
        gw := ((tickLoop g oor clock l st).gw, log ++ queriesOf l) } := by
  induction l generalizing st log with
  | nil => simp [tickLoop, queriesOf]
  | cons e tl ih =>
    rw [tickLoop_cons, tickLoop_cons]
    by_cases ha : e.2.IsActive = false
    · rw [loopBody_inactive _ _ _ _ e ha, loopBody_inactive _ _ _ _ e ha, ih]
      simp [queriesOf, ha]
    · have hstep : loopBody (recording g) oor (recordingClock clock)
          { configChanged := st.configChanged, needsV2RayRestart := st.needsV2RayRestart,
            usersToUpdate := st.usersToUpdate, gw := (st.gw, log) } e =
          { configChanged := (loopBody g oor clock st e).configChanged,
            needsV2RayRestart := (loopBody g oor clock st e).needsV2RayRestart,
            usersToUpdate := (loopBody g oor clock st e).usersToUpdate,
            gw := ((loopBody g oor clock st e).gw,
              log ++ [uplinkRequest ("user_" ++ e.2.ID) true,
                downlinkRequest ("user_" ++ e.2.ID) true]) } := by
        unfold loopBody
        rw [if_neg ha, if_neg ha]
        simp only [query_recording, recordingClock]
        cases (queryV2RayStats (some g) st.gw ("user_" ++ e.2.ID) true).1.err <;> simp
      rw [hstep, ih]
      simp [queriesOf, ha]

/-- A tick run against the recording gateway does what the tick does, and
the record it leaves is `queriesOf` of the registry. -/
theorem tick_recording (users : UsersConfig) (s : σ) :
    (tick (recording g) oor (recordingClock clock) users (s, [])).users = (tick g oor clock users s).users ∧
    (tick (recording g) oor (recordingClock clock) users (s, [])).saved = (tick g oor clock users s).saved ∧
    (tick (recording g) oor (recordingClock clock) users (s, [])).restarted = (tick g oor clock users s).restarted ∧
    (tick (recording g) oor (recordingClock clock) users (s, [])).gw = ((tick g oor clock users s).gw,
      queriesOf users) := by
  have h := tickLoop_recording g oor clock users (LoopState.init s) []
  simp only [LoopState.init, List.nil_append] at h
  unfold tick
  simp only [LoopState.init, h]
  by_cases hc : (tickLoop g oor clock users
      { configChanged := false, needsV2RayRestart := false, usersToUpdate := [], gw := s }).configChanged = true
  · simp [hc]
  · simp [hc]

theorem queriesOf_skip (pre post : UsersConfig) (k : String) (u : User)
    (h : u.IsActive = false) :
    queriesOf (pre ++ (k, u) :: post) = queriesOf (pre ++ post) := by
  induction pre with
  | nil => simp [queriesOf, h]
  | cons e tl ih => simp [queriesOf, ih]

theorem runTicks_get_inactive (clocks : List (σ → Time)) (users : UsersConfig) (k : String)
    (u : User)
    (s : σ) (hwf : UsersConfig.WF users) (hget : UsersConfig.get users k = some u)
    (hact : u.IsActive = false) :
    UsersConfig.get (runTicks g oor clocks users s).1 k = some u := by
  induction clocks generalizing users s with
  | nil => exact hget
  | cons t rest ih =>
    unfold runTicks
    exact ih _ _ (tick_users_wf g oor t users s hwf)
      (tick_get_inactive g oor t users k u s hwf hget hact)

end Recording

/-! ## Lemmas on the client list -/

theorem collectClients_fold (users : UsersConfig) (acc : List Client × Nat) :
    users.foldl
        (fun acc e =>
          if e.2.IsActive = true then (acc.1 ++ [clientFor e.2.ID], acc.2 + 1) else acc) acc =
      (acc.1 ++ (activeAccounts users).map (fun u => clientFor u.ID),
        acc.2 + (activeAccounts users).length) := by
  induction users generalizing acc with
  | nil => simp [activeAccounts]
  | cons e tl ih =>
    rw [List.foldl_cons, ih]
    by_cases h : e.2.IsActive = true
    · simp [activeAccounts, h, List.filter_cons, Nat.add_assoc, Nat.add_comm 1]
    · simp [activeAccounts, h, List.filter_cons]

theorem collectClients_eq (users : UsersConfig) :
    collectClients users =
      ((activeAccounts users).map (fun u => clientFor u.ID), (activeAccounts users).length) := by
  unfold collectClients
  rw [collectClients_fold]
  simp

theorem activeAccounts_eq_nil (users : UsersConfig) :
    activeAccounts users = [] ↔ ∀ e ∈ users, e.2.IsActive = false := by
  unfold activeAccounts
  simp [List.filter_eq_nil_iff]

/-! ## The byte limit -/

/-- C1, as amended. In an enforcement tick, take an active account whose
query succeeds and whose time limit does not fire, with a finite limit
`L = m * 2^e` gigabytes whose byte value `trunc(L * 2^30)` is an `int64`.
Then the registry holds a record for it after the tick, its
`TrafficUsedBytes` is the value `U` after this tick's traffic was added, and
the account is inactive if and only if `U >= trunc(L * 2^30)`, where
`trunc(L * 2^30) = truncPow2 m (e + 30)` is the floor of the rational number
`L * 2^30` for `L >= 0` and its ceiling for `L <= 0`. -/
theorem byte_limit_boundary {σ : Type} (g : StatsServiceClient σ) (oor : Float64 → Int)
    (clock : σ → Time) (pre post : UsersConfig) (k : String) (u : User) (s : σ) (m e : Int)
    (hwf : UsersConfig.WF (pre ++ (k, u) :: post))
    (hact : u.IsActive = true)
    (hq : (queryAt g oor clock pre s u).err = none)
    (htime : expired (nowAt g oor clock pre s u) u = false)
    (hlimit : u.TrafficLimitGB = Float64.finite m e)
    (hrange : isInt64 (truncPow2 m (e + 30))) :
    ∃ u', UsersConfig.get (tick g oor clock (pre ++ (k, u) :: post) s).users k = some u' ∧
      u'.TrafficUsedBytes =
        (addTraffic u (queryAt g oor clock pre s u).uplink
          (queryAt g oor clock pre s u).downlink).TrafficUsedBytes ∧
      (u'.IsActive = false ↔ truncPow2 m (e + 30) ≤ u'.TrafficUsedBytes) ∧
      (0 ≤ m → truncPow2 m (e + 30) = ⌊(m : ℚ) * 2 ^ e * 2 ^ (30 : Nat)⌋) ∧
      (m ≤ 0 → truncPow2 m (e + 30) = ⌈(m : ℚ) * 2 ^ e * 2 ^ (30 : Nat)⌉) := by
  refine ⟨_, tick_get_ok g oor clock pre post k u s hwf hact hq, ?_, ?_,
    truncPow2_scaled m e⟩
  · rw [enforce_user]
  · rw [enforce_user]
    have hL := (addTraffic_frame u (queryAt g oor clock pre s u).uplink
      (queryAt g oor clock pre s u).downlink).2.1
    simp only [hact, htime, overTraffic, hL, hlimit, trafficLimitBytes_finite oor m e hrange]
    simp

/-- C1, witness: a limit of 1 GB. Usage that reaches exactly 1073741824
bytes deactivates the account; usage that reaches 1073741823 bytes does
not. -/
theorem byte_limit_boundary_witness :
    (∃ u', UsersConfig.get (tick scripted oorAmd64 (fixedClock 0)
        ([] ++ ("a", account "a" (.finite 1 0) 0 1073741724) :: [])
        [statReply 60, statReply 40]).users "a" = some u' ∧
      u'.TrafficUsedBytes =
        (addTraffic (account "a" (.finite 1 0) 0 1073741724)
          (queryAt scripted oorAmd64 (fixedClock 0) [] [statReply 60, statReply 40]
            (account "a" (.finite 1 0) 0 1073741724)).uplink
          (queryAt scripted oorAmd64 (fixedClock 0) [] [statReply 60, statReply 40]
            (account "a" (.finite 1 0) 0 1073741724)).downlink).TrafficUsedBytes ∧
      (u'.IsActive = false ↔ truncPow2 1 (0 + 30) ≤ u'.TrafficUsedBytes) ∧
      (0 ≤ (1 : Int) → truncPow2 1 (0 + 30) = ⌊((1 : Int) : ℚ) * 2 ^ (0 : Int) * 2 ^ (30 : Nat)⌋) ∧
      ((1 : Int) ≤ 0 →
        truncPow2 1 (0 + 30) = ⌈((1 : Int) : ℚ) * 2 ^ (0 : Int) * 2 ^ (30 : Nat)⌉)) ∧
    UsersConfig.get (tick scripted oorAmd64 (fixedClock 0) (single 1073741724)
        [statReply 60, statReply 40]).users "a" =
      some (inactiveAccount "a" (.finite 1 0) 0 1073741824) ∧
    UsersConfig.get (tick scripted oorAmd64 (fixedClock 0) (single 1073741723)
        [statReply 60, statReply 40]).users "a" =
      some (account "a" (.finite 1 0) 0 1073741823) :=
  ⟨byte_limit_boundary scripted oorAmd64 (fixedClock 0) [] [] "a"
      (account "a" (.finite 1 0) 0 1073741724)
      [statReply 60, statReply 40] 1 0 (by decide) (by decide) (by decide) (by decide) rfl
      (by decide),
    by decide, by decide⟩

/-- C1, counterexample: with a limit of `2^33` GB the byte value `2^63` is
not an `int64`. On amd64 the conversion yields `-2^63`, and an account with
no usage at all is deactivated although `0 < 2^63`; on a saturating target
it yields `2^63 - 1`, and an account with that usage is deactivated although
`2^63 - 1 < 2^63`. -/
theorem byte_limit_boundary_fails_out_of_range :
    ((queryAt scripted oorAmd64 (fixedClock 0) [] [statReply 0, statReply 0]
        (account "a" (.finite 1 33) 0 0)).err = none ∧
      expired 0 (account "a" (.finite 1 33) 0 0) = false ∧
      UsersConfig.get (tick scripted oorAmd64 (fixedClock 0) [("a", account "a" (.finite 1 33) 0 0)]
          [statReply 0, statReply 0]).users "a" =
        some { account "a" (.finite 1 33) 0 0 with IsActive := false } ∧
      ¬ truncPow2 1 (33 + 30) ≤ 0) ∧
    ((queryAt scripted oorSaturating (fixedClock 0) [] [statReply 0, statReply 0]
        (account "a" (.finite 1 33) 0 9223372036854775807)).err = none ∧
      expired 0 (account "a" (.finite 1 33) 0 9223372036854775807) = false ∧
      UsersConfig.get (tick scripted oorSaturating (fixedClock 0)
          [("a", account "a" (.finite 1 33) 0 9223372036854775807)]
          [statReply 0, statReply 0]).users "a" =
        some { account "a" (.finite 1 33) 0 9223372036854775807 with IsActive := false } ∧
      ¬ truncPow2 1 (33 + 30) ≤ 9223372036854775807) := by
  decide

/-! ## The time limit -/

/-- C2, as amended. In an enforcement tick, take an active account whose
query succeeds and whose traffic limit does not fire, with `CreatedAt = C`
kept in UTC and `TimeLimitDays = D`, and let `now` be the instant read in its
iteration. If `D > 0` and `C + D` days is a value of `time.Time` (its seconds
since year 1, `C / 10^9 + 62135596800 + D * 86400`, fit `int64`), the account
is inactive after the tick if and only if `now` is strictly later than
`C + D` days (at the instant `now = C + D` days itself it stays active); if
`D <= 0` it stays active, for any `C` and `now`. -/
theorem time_limit_boundary {σ : Type} (g : StatsServiceClient σ) (oor : Float64 → Int)
    (clock : σ → Time) (pre post : UsersConfig) (k : String) (u : User) (s : σ)
    (hwf : UsersConfig.WF (pre ++ (k, u) :: post))
    (hact : u.IsActive = true)
    (hq : (queryAt g oor clock pre s u).err = none)
    (htraffic : overTraffic oor (addTraffic u (queryAt g oor clock pre s u).uplink
      (queryAt g oor clock pre s u).downlink) = false) :
    ∃ u', UsersConfig.get (tick g oor clock (pre ++ (k, u) :: post) s).users k = some u' ∧
      (0 < u.TimeLimitDays →
        isInt64 (u.CreatedAt / 1000000000 + 62135596800 + u.TimeLimitDays * 86400) →
        (u'.IsActive = false ↔
          u.CreatedAt + u.TimeLimitDays * 86400000000000 < nowAt g oor clock pre s u)) ∧
      (u.TimeLimitDays ≤ 0 → u'.IsActive = true) := by
  refine ⟨_, tick_get_ok g oor clock pre post k u s hwf hact hq, ?_, ?_⟩
  · intro hD hrange
    rw [enforce_user]
    simp [hact, htraffic, expired, hD, Time.After, addDate_of_isInt64 _ _ hrange]
  · intro hD
    rw [enforce_user]
    have : ¬ 0 < u.TimeLimitDays := not_lt.mpr hD
    simp [hact, htraffic, expired, this]

/-- C2, witness: created at instant 0 with a limit of 30 days. One nanosecond
after the thirtieth day ends the account is deactivated; at the end of the
thirtieth day itself it is not. -/
theorem time_limit_boundary_witness :
    (∃ u', UsersConfig.get (tick scripted oorAmd64 (fixedClock 2592000000000001)
        ([] ++ ("a", account "a" (.finite 1 0) 30 0) :: [])
        [statReply 0, statReply 0]).users "a" = some u' ∧
      (0 < (account "a" (.finite 1 0) 30 0).TimeLimitDays →
        isInt64 ((account "a" (.finite 1 0) 30 0).CreatedAt / 1000000000 + 62135596800 +
          (account "a" (.finite 1 0) 30 0).TimeLimitDays * 86400) →
        (u'.IsActive = false ↔
          (account "a" (.finite 1 0) 30 0).CreatedAt +
            (account "a" (.finite 1 0) 30 0).TimeLimitDays * 86400000000000 <
              2592000000000001)) ∧
      ((account "a" (.finite 1 0) 30 0).TimeLimitDays ≤ 0 → u'.IsActive = true)) ∧
    isInt64 ((account "a" (.finite 1 0) 30 0).CreatedAt / 1000000000 + 62135596800 +
      (account "a" (.finite 1 0) 30 0).TimeLimitDays * 86400) ∧
    UsersConfig.get (tick scripted oorAmd64 (fixedClock 2592000000000001)
        [("a", account "a" (.finite 1 0) 30 0)] [statReply 0, statReply 0]).users "a" =
      some (inactiveAccount "a" (.finite 1 0) 30 0) ∧
    UsersConfig.get (tick scripted oorAmd64 (fixedClock 2592000000000000)
        [("a", account "a" (.finite 1 0) 30 0)] [statReply 0, statReply 0]).users "a" =
      some (account "a" (.finite 1 0) 30 0) :=
  ⟨time_limit_boundary scripted oorAmd64 (fixedClock 2592000000000001) [] [] "a"
      (account "a" (.finite 1 0) 30 0) [statReply 0, statReply 0]
      (by decide) (by decide) (by decide) (by decide),
    by decide, by decide, by decide⟩

/-- C2, counterexample, in two parts. First, an account created at instant 0
with a limit of 30 days and no traffic, looked at exactly at
`now = C + 30` days (2592000000000000 ns): `now >= C + D` days holds, yet the
tick leaves the account active, because `After` is a strict comparison.
Second, an account created at instant 0 with a limit of 106751990448139 days,
looked at on 2000-01-01T00:00:01Z (946684801000000000 ns): `now` is far
before `C + D` days, yet the tick deactivates the account, because the
seconds since year 1 of `C + D` days do not fit `int64` and the expiry wraps
into the past. -/
theorem time_limit_boundary_fails_at_equality_and_on_wrap :
    ((queryAt scripted oorAmd64 (fixedClock 2592000000000000) [] [statReply 0, statReply 0]
        (account "a" (.finite 1 0) 30 0)).err = none ∧
      overTraffic oorAmd64 (addTraffic (account "a" (.finite 1 0) 30 0) 0 0) = false ∧
      (0 : Int) + 30 * 86400000000000 ≤ 2592000000000000 ∧
      UsersConfig.get (tick scripted oorAmd64 (fixedClock 2592000000000000)
          [("a", account "a" (.finite 1 0) 30 0)] [statReply 0, statReply 0]).users "a" =
        some (account "a" (.finite 1 0) 30 0) ∧
      (account "a" (.finite 1 0) 30 0).IsActive = true) ∧
    ((queryAt scripted oorAmd64 (fixedClock 946684801000000000) [] [statReply 0, statReply 0]
        (account "a" (.finite 1 0) 106751990448139 0)).err = none ∧
      overTraffic oorAmd64 (addTraffic (account "a" (.finite 1 0) 106751990448139 0) 0 0) =
        false ∧
      ¬ (0 : Int) + 106751990448139 * 86400000000000 ≤ 946684801000000000 ∧
      ¬ isInt64 ((0 : Int) / 1000000000 + 62135596800 + 106751990448139 * 86400) ∧
      isInt64 ((0 : Int) / 1000000000 + 62135596800 + 106751990448138 * 86400) ∧
      UsersConfig.get (tick scripted oorAmd64 (fixedClock 946684801000000000)
          [("a", account "a" (.finite 1 0) 106751990448139 0)]
          [statReply 0, statReply 0]).users "a" =
        some (inactiveAccount "a" (.finite 1 0) 106751990448139 0)) := by
  decide

/-! ## Usage accumulation -/

/-- C3, as amended. In an enforcement tick, take an active account whose
query succeeds with counters `uplink >= 0` and `downlink >= 0` whose sum is
below `2^63` (the `int64` sum does not overflow). Then its `TrafficUsedBytes`
after the tick is the old value plus `uplink + downlink`, computed in
`int64`; it is exactly that sum whenever the sum is below `2^63`. -/
theorem usage_accumulation {σ : Type} (g : StatsServiceClient σ) (oor : Float64 → Int)
    (clock : σ → Time) (pre post : UsersConfig) (k : String) (u : User) (s : σ)
    (hwf : UsersConfig.WF (pre ++ (k, u) :: post))
    (hact : u.IsActive = true)
    (hq : (queryAt g oor clock pre s u).err = none)
    (hused : isInt64 u.TrafficUsedBytes)
    (hup : 0 ≤ (queryAt g oor clock pre s u).uplink)
    (hdown : 0 ≤ (queryAt g oor clock pre s u).downlink)
    (hsum : (queryAt g oor clock pre s u).uplink + (queryAt g oor clock pre s u).downlink < 2 ^ 63) :
    ∃ u', UsersConfig.get (tick g oor clock (pre ++ (k, u) :: post) s).users k = some u' ∧
      u'.TrafficUsedBytes =
        wrapInt64 (u.TrafficUsedBytes +
          ((queryAt g oor clock pre s u).uplink + (queryAt g oor clock pre s u).downlink)) ∧
      (u.TrafficUsedBytes +
          ((queryAt g oor clock pre s u).uplink + (queryAt g oor clock pre s u).downlink) < 2 ^ 63 →
        u'.TrafficUsedBytes = u.TrafficUsedBytes +
          ((queryAt g oor clock pre s u).uplink + (queryAt g oor clock pre s u).downlink)) := by
  have hw : wrapInt64 ((queryAt g oor clock pre s u).uplink +
      (queryAt g oor clock pre s u).downlink) =
      (queryAt g oor clock pre s u).uplink + (queryAt g oor clock pre s u).downlink :=
    wrapInt64_of_isInt64 _ ⟨by omega, hsum⟩
  have h1 : (addTraffic u (queryAt g oor clock pre s u).uplink
      (queryAt g oor clock pre s u).downlink).TrafficUsedBytes =
      wrapInt64 (u.TrafficUsedBytes +
        ((queryAt g oor clock pre s u).uplink + (queryAt g oor clock pre s u).downlink)) := by
    unfold addTraffic
    rw [hw]
    split
    · rfl
    · rename_i hpos
      have h0 : (queryAt g oor clock pre s u).uplink + (queryAt g oor clock pre s u).downlink = 0 := by
        omega
      rw [h0, add_zero, wrapInt64_of_isInt64 _ hused]
  refine ⟨_, tick_get_ok g oor clock pre post k u s hwf hact hq, ?_, ?_⟩
  · rw [enforce_user]
    exact h1
  · intro hlt
    rw [enforce_user]
    show (addTraffic u _ _).TrafficUsedBytes = _
    rw [h1]
    exact wrapInt64_of_isInt64 _ ⟨by unfold isInt64 at hused; omega, hlt⟩

/-- C3, witness: 900000000 bytes used before, 120000000 up and 80000000 down
in this tick, 1100000000 after. -/
theorem usage_accumulation_witness :
    ∃ u', UsersConfig.get (tick scripted oorAmd64 (fixedClock 0)
        ([] ++ ("a", account "a" (.finite 1 0) 0 900000000) :: [])
        [statReply 120000000, statReply 80000000]).users "a" = some u' ∧
      u'.TrafficUsedBytes =
        wrapInt64 ((account "a" (.finite 1 0) 0 900000000).TrafficUsedBytes +
          ((queryAt scripted oorAmd64 (fixedClock 0) [] [statReply 120000000, statReply 80000000]
              (account "a" (.finite 1 0) 0 900000000)).uplink +
            (queryAt scripted oorAmd64 (fixedClock 0) [] [statReply 120000000, statReply 80000000]
              (account "a" (.finite 1 0) 0 900000000)).downlink)) ∧
      ((account "a" (.finite 1 0) 0 900000000).TrafficUsedBytes +
          ((queryAt scripted oorAmd64 (fixedClock 0) [] [statReply 120000000, statReply 80000000]
              (account "a" (.finite 1 0) 0 900000000)).uplink +
            (queryAt scripted oorAmd64 (fixedClock 0) [] [statReply 120000000, statReply 80000000]
              (account "a" (.finite 1 0) 0 900000000)).downlink) < 2 ^ 63 →
        u'.TrafficUsedBytes = (account "a" (.finite 1 0) 0 900000000).TrafficUsedBytes +
          ((queryAt scripted oorAmd64 (fixedClock 0) [] [statReply 120000000, statReply 80000000]
              (account "a" (.finite 1 0) 0 900000000)).uplink +
            (queryAt scripted oorAmd64 (fixedClock 0) [] [statReply 120000000, statReply 80000000]
              (account "a" (.finite 1 0) 0 900000000)).downlink)) :=
  usage_accumulation scripted oorAmd64 (fixedClock 0) [] [] "a" (account "a" (.finite 1 0) 0 900000000)
    [statReply 120000000, statReply 80000000]
    (by decide) (by decide) (by decide) (by decide) (by decide) (by decide) (by decide)

/-- C3, counterexample: an account with no usage and a limit of `2^32` GB
whose query succeeds with the non-negative counters `2^62` and `2^62`. Their
`int64` sum wraps to `-2^63`, which is not positive, so nothing is added: the
usage stays 0, which is neither `0 + 2^62 + 2^62` nor that sum wrapped. -/
theorem usage_accumulation_fails_on_overflow :
    (queryAt scripted oorAmd64 (fixedClock 0) []
        [statReply 4611686018427387904, statReply 4611686018427387904]
        (account "a" (.finite 1 32) 0 0)) =
      { uplink := 4611686018427387904, downlink := 4611686018427387904, err := none } ∧
    (UsersConfig.get (tick scripted oorAmd64 (fixedClock 0) [("a", account "a" (.finite 1 32) 0 0)]
        [statReply 4611686018427387904, statReply 4611686018427387904]).users "a").map
      User.TrafficUsedBytes = some 0 ∧
    (0 : Int) + (4611686018427387904 + 4611686018427387904) ≠ 0 ∧
    wrapInt64 (0 + (4611686018427387904 + 4611686018427387904)) ≠ 0 := by
  decide

/-! ## Restart and persistence -/

/-- C4. A tick on a well-formed registry calls `handleRestartV2Ray` if and
only if at least one account is active before the tick and inactive after
it; and a tick in which the usage of some account grew while no account was
deactivated hands the registry, as it is after the tick, to
`saveUsersConfig` and does not call `handleRestartV2Ray`. -/
theorem restart_iff_deactivation {σ : Type} (g : StatsServiceClient σ) (oor : Float64 → Int)
    (clock : σ → Time) (users : UsersConfig) (s : σ) (hwf : UsersConfig.WF users) :
    ((tick g oor clock users s).restarted = true ↔
      someDeactivated users (tick g oor clock users s).users) ∧
    ((∃ k u u', UsersConfig.get users k = some u ∧
          UsersConfig.get (tick g oor clock users s).users k = some u' ∧
          u.TrafficUsedBytes < u'.TrafficUsedBytes) →
      ¬ someDeactivated users (tick g oor clock users s).users →
      (tick g oor clock users s).saved = some (tick g oor clock users s).users ∧
      (tick g oor clock users s).restarted = false) := by
  refine ⟨tick_restarted_iff_deactivated g oor clock users s hwf, ?_⟩
  rintro ⟨k, u, u', h1, h2, h3⟩ hno
  constructor
  · rw [tick_saved g oor clock users s hwf,
      tick_usage_changed_saved g oor clock users s hwf k u u' h1 h2 (ne_of_gt h3)]
    rfl
  · rw [← tick_restarted_iff_deactivated g oor clock users s hwf] at hno
    simpa using hno

/-- C4, witness: two accounts; `a` uses 100 bytes and stays below its limit,
`b` is inactive already. The tick saves the registry and does not restart. -/
theorem restart_iff_deactivation_witness :
    UsersConfig.WF oneOfTwoActive ∧
    (tick scripted oorAmd64 (fixedClock 0) oneOfTwoActive [statReply 60, statReply 40]).saved =
      some (tick scripted oorAmd64 (fixedClock 0) oneOfTwoActive [statReply 60, statReply 40]).users ∧
    (tick scripted oorAmd64 (fixedClock 0) oneOfTwoActive [statReply 60, statReply 40]).restarted = false :=
  ⟨by decide,
    (restart_iff_deactivation scripted oorAmd64 (fixedClock 0) oneOfTwoActive [statReply 60, statReply 40]
      (by decide)).2
      ⟨"a", account "a" (.finite 1 0) 0 5, account "a" (.finite 1 0) 0 105,
        by decide, by decide, by decide⟩
      (fun hd => absurd
        ((tick_restarted_iff_deactivated scripted oorAmd64 (fixedClock 0) oneOfTwoActive
          [statReply 60, statReply 40] (by decide)).mpr hd) (by decide))⟩

/-- C5, as amended. A tick on a well-formed registry calls `saveUsersConfig`
if and only if, for at least one active account whose query succeeded, the
`int64` sum `uplink + downlink` is positive or the account is inactive after
the tick. Every tick that calls `handleRestartV2Ray`, and every tick that
deactivates an account, also saves; and the map handed to `saveUsersConfig`
is the registry as it is after the tick. -/
theorem persist_iff_changed {σ : Type} (g : StatsServiceClient σ) (oor : Float64 → Int)
    (clock : σ → Time) (users : UsersConfig) (s : σ) (hwf : UsersConfig.WF users) :
    ((tick g oor clock users s).saved.isSome = true ↔
      ∃ pre k u post, users = pre ++ (k, u) :: post ∧ u.IsActive = true ∧
        (queryAt g oor clock pre s u).err = none ∧
        (0 < wrapInt64 ((queryAt g oor clock pre s u).uplink +
            (queryAt g oor clock pre s u).downlink) ∨
          ∃ u', UsersConfig.get (tick g oor clock users s).users k = some u' ∧
            u'.IsActive = false)) ∧
    ((tick g oor clock users s).restarted = true →
      (tick g oor clock users s).saved.isSome = true) ∧
    (someDeactivated users (tick g oor clock users s).users →
      (tick g oor clock users s).saved.isSome = true) ∧
    (∀ m, (tick g oor clock users s).saved = some m → m = (tick g oor clock users s).users) := by
  refine ⟨tick_saved_iff_changed g oor clock users s hwf,
    tick_restarted_saved g oor clock users s, ?_, ?_⟩
  · intro hd
    exact tick_restarted_saved g oor clock users s
      ((tick_restarted_iff_deactivated g oor clock users s hwf).mpr hd)
  · intro m hm
    rw [tick_saved g oor clock users s hwf] at hm
    by_cases hs : (tick g oor clock users s).saved.isSome = true
    · rw [if_pos hs] at hm
      exact (Option.some.inj hm).symm
    · rw [if_neg hs] at hm
      exact absurd hm (by simp)

/-- C5, witness: the account `a` uses 100 bytes; the tick saves the registry
with the new usage. -/
theorem persist_iff_changed_witness :
    UsersConfig.WF oneOfTwoActive ∧
    (tick scripted oorAmd64 (fixedClock 0) oneOfTwoActive [statReply 60, statReply 40]).saved =
      some [("a", account "a" (.finite 1 0) 0 105),
        ("b", inactiveAccount "b" (.finite 1 0) 0 7)] ∧
    (tick scripted oorAmd64 (fixedClock 0) oneOfTwoActive [statReply 60, statReply 40]).users =
      [("a", account "a" (.finite 1 0) 0 105), ("b", inactiveAccount "b" (.finite 1 0) 0 7)] :=
  ⟨by decide, by decide,
    ((persist_iff_changed scripted oorAmd64 (fixedClock 0) oneOfTwoActive [statReply 60, statReply 40]
      (by decide)).2.2.2 _ (by decide)).symm⟩

/-- C5, counterexample: one active account whose query succeeds with a sum
`uplink + downlink` that is not zero and not positive: the counters `-1` and
`0`, and the counters `2^62` and `2^62`, whose `int64` sum is `-2^63`. The
account stays active, and `saveUsersConfig` is not called. -/
theorem persist_iff_changed_fails_on_nonpositive_sum :
    (queryAt scripted oorAmd64 (fixedClock 0) [] [statReply (-1), statReply 0]
        (account "a" (.finite 1 0) 0 0) = { uplink := -1, downlink := 0, err := none } ∧
      wrapInt64 (-1 + 0) ≠ 0 ∧
      (tick scripted oorAmd64 (fixedClock 0) (single 0) [statReply (-1), statReply 0]).saved = none) ∧
    (queryAt scripted oorAmd64 (fixedClock 0) []
          [statReply 4611686018427387904, statReply 4611686018427387904]
          (account "a" (.finite 1 0) 0 0) =
        { uplink := 4611686018427387904, downlink := 4611686018427387904, err := none } ∧
      wrapInt64 (4611686018427387904 + 4611686018427387904) ≠ 0 ∧
      (tick scripted oorAmd64 (fixedClock 0) (single 0)
        [statReply 4611686018427387904, statReply 4611686018427387904]).saved = none) := by
  decide

/-! ## Sticky deactivation -/

/-- C6. An account that is inactive before a tick has the same record after
it; the requests the tick sends are those of the active accounts only, and
they are the same as for the registry without that account; and after any
run of ticks the account still has the same record, so it is still
inactive. -/
theorem sticky_deactivation {σ : Type} (g : StatsServiceClient σ) (oor : Float64 → Int)
    (clock : σ → Time) (pre post : UsersConfig) (k : String) (u : User) (s : σ)
    (hwf : UsersConfig.WF (pre ++ (k, u) :: post)) (hact : u.IsActive = false) :
    UsersConfig.get (tick g oor clock (pre ++ (k, u) :: post) s).users k = some u ∧
    (tick (recording g) oor (recordingClock clock) (pre ++ (k, u) :: post) (s, [])).users =
      (tick g oor clock (pre ++ (k, u) :: post) s).users ∧
    (tick (recording g) oor (recordingClock clock) (pre ++ (k, u) :: post) (s, [])).gw.2 =
      queriesOf (pre ++ (k, u) :: post) ∧
    queriesOf (pre ++ (k, u) :: post) = queriesOf (pre ++ post) ∧
    (∀ clocks : List (σ → Time),
      UsersConfig.get (runTicks g oor clocks (pre ++ (k, u) :: post) s).1 k = some u) := by
  have hget := get_mid pre post k u hwf
  have hrec := tick_recording g oor clock (pre ++ (k, u) :: post) s
  refine ⟨tick_get_inactive g oor clock _ k u s hwf hget hact, hrec.1, ?_,
    queriesOf_skip pre post k u hact, ?_⟩
  · rw [hrec.2.2.2]
  · intro clocks
    exact runTicks_get_inactive g oor clocks _ k u s hwf hget hact

/-- C6, witness: the inactive account `b` next to the active account `a`;
the two requests of the tick are those for `a`. -/
theorem sticky_deactivation_witness :
    UsersConfig.WF oneOfTwoActive ∧
    UsersConfig.get (tick scripted oorAmd64 (fixedClock 0) oneOfTwoActive
        [statReply 60, statReply 40]).users "b" =
      some (inactiveAccount "b" (.finite 1 0) 0 7) ∧
    (tick (recording scripted) oorAmd64 (fixedClock 0) oneOfTwoActive
        ([statReply 60, statReply 40], [])).gw.2 =
      [{ Name := "user>>>user_a>>>traffic>>>uplink", Reset := true },
        { Name := "user>>>user_a>>>traffic>>>downlink", Reset := true }] :=
  ⟨by decide,
    (sticky_deactivation scripted oorAmd64 (fixedClock 0) [("a", account "a" (.finite 1 0) 0 5)] [] "b"
      (inactiveAccount "b" (.finite 1 0) 0 7) [statReply 60, statReply 40]
      (by decide) (by decide)).1,
    by decide⟩

/-! ## Monotone usage -/

/-- C7, as amended. For every tick, every account of a well-formed registry
whose `TrafficUsedBytes` is an `int64`, and every answer of the gateway
(errors, zero and negative counters included): if adding the period's
traffic does not overflow `int64` (the old value plus the `int64` sum
`uplink + downlink` stays below `2^63` when the account is active and its
query succeeds), then `TrafficUsedBytes` after the tick is greater than or
equal to its value before. -/
theorem usage_non_decreasing {σ : Type} (g : StatsServiceClient σ) (oor : Float64 → Int)
    (clock : σ → Time) (pre post : UsersConfig) (k : String) (u : User) (s : σ)
    (hwf : UsersConfig.WF (pre ++ (k, u) :: post))
    (hused : isInt64 u.TrafficUsedBytes)
    (hno : u.IsActive = true → (queryAt g oor clock pre s u).err = none →
      u.TrafficUsedBytes + wrapInt64 ((queryAt g oor clock pre s u).uplink +
        (queryAt g oor clock pre s u).downlink) < 2 ^ 63) :
    ∃ u', UsersConfig.get (tick g oor clock (pre ++ (k, u) :: post) s).users k = some u' ∧
      u.TrafficUsedBytes ≤ u'.TrafficUsedBytes := by
  refine ⟨_, tick_get_mid g oor clock pre post k u s hwf, ?_⟩
  cases hu : entryUpdate g oor clock (gwAfter g oor clock pre s) u with
  | none => simp
  | some v =>
    obtain ⟨ha, hq, hv⟩ := (entryUpdate_some_iff g oor clock _ u v).mp hu
    have hlt := hno ha hq
    simp only [Option.map_some', Option.getD_some]
    rw [hv, enforce_user]
    show _ ≤ (addTraffic u _ _).TrafficUsedBytes
    unfold addTraffic
    unfold queryAt at hlt
    split
    · rename_i hpos
      show _ ≤ wrapInt64 _
      rw [wrapInt64_of_isInt64 _ ⟨by unfold isInt64 at hused; omega, hlt⟩]
      omega
    · exact le_refl _

/-- C7, witness: 5 bytes used, 60 up and 40 down in the tick. -/
theorem usage_non_decreasing_witness :
    ∃ u', UsersConfig.get (tick scripted oorAmd64 (fixedClock 0) ([] ++ ("a", account "a" (.finite 1 0) 0 5)
        :: [("b", account "b" (.finite 1 0) 0 7)]) [statReply 60, statReply 40]).users "a" =
        some u' ∧
      (account "a" (.finite 1 0) 0 5).TrafficUsedBytes ≤ u'.TrafficUsedBytes :=
  usage_non_decreasing scripted oorAmd64 (fixedClock 0) [] [("b", account "b" (.finite 1 0) 0 7)] "a"
    (account "a" (.finite 1 0) 0 5) [statReply 60, statReply 40]
    (by decide) (by decide) (fun _ _ => by decide)

/-- C7, counterexample: an active account with `2^63 - 1` bytes used whose
query succeeds with the counters 1 and 0: the `int64` addition wraps, and
the usage after the tick is `-2^63`, below the value before. -/
theorem usage_non_decreasing_fails_on_overflow :
    isInt64 9223372036854775807 ∧
    queryAt scripted oorAmd64 (fixedClock 0) [] [statReply 1, statReply 0]
        (account "a" (.finite 1 0) 0 9223372036854775807) =
      { uplink := 1, downlink := 0, err := none } ∧
    (UsersConfig.get (tick scripted oorAmd64 (fixedClock 0) (single 9223372036854775807)
        [statReply 1, statReply 0]).users "a").map User.TrafficUsedBytes =
      some (-9223372036854775808) ∧
    ¬ (9223372036854775807 : Int) ≤ -9223372036854775808 := by
  decide

/-! ## Isolation of metrics failures -/

/-- C8, as amended. In every tick on a well-formed registry: an account
whose query returns an error keeps its record; the record of every account
after the tick is determined by its own record and the answer to its own
query alone (the verdict of lines 301 to 328 if it is active and its query
succeeded, the old record otherwise), so it is the record the account has
in any other run of the tick, against any other gateway, in which its own
query is answered alike, whatever happens to the queries of the other
accounts there; and with two active accounts `A` (query fails) and `B`
(query succeeds, `uplink + downlink` positive, no limit crossed), visited in
either order, `A` keeps its record, `B` gets the traffic added, the registry
so updated is saved and no restart is called. -/
theorem metrics_failure_isolation {σ : Type} (g : StatsServiceClient σ) (oor : Float64 → Int)
    (clock : σ → Time) :
    (∀ (pre post : UsersConfig) (k : String) (u : User) (s : σ),
      UsersConfig.WF (pre ++ (k, u) :: post) →
      (queryAt g oor clock pre s u).err ≠ none →
      UsersConfig.get (tick g oor clock (pre ++ (k, u) :: post) s).users k = some u) ∧
    (∀ (pre post : UsersConfig) (k : String) (u : User) (s : σ),
      UsersConfig.WF (pre ++ (k, u) :: post) →
      UsersConfig.get (tick g oor clock (pre ++ (k, u) :: post) s).users k =
        some (if u.IsActive = true ∧ (queryAt g oor clock pre s u).err = none then
          (enforce oor (nowAt g oor clock pre s u) u (queryAt g oor clock pre s u).uplink
            (queryAt g oor clock pre s u).downlink).user
          else u)) ∧
    (∀ (σ' : Type) (g' : StatsServiceClient σ') (clock' : σ' → Time) (s' : σ')
        (pre post : UsersConfig) (k : String) (u : User) (s : σ),
      UsersConfig.WF (pre ++ (k, u) :: post) →
      queryAt g' oor clock' pre s' u = queryAt g oor clock pre s u →
      nowAt g' oor clock' pre s' u = nowAt g oor clock pre s u →
      UsersConfig.get (tick g' oor clock' (pre ++ (k, u) :: post) s').users k =
        UsersConfig.get (tick g oor clock (pre ++ (k, u) :: post) s).users k) ∧
    (∀ (a b : String) (A B : User) (s : σ), a ≠ b →
      A.IsActive = true → B.IsActive = true →
      (queryAt g oor clock [] s A).err ≠ none →
      (queryAt g oor clock [(a, A)] s B).err = none →
      0 < wrapInt64 ((queryAt g oor clock [(a, A)] s B).uplink +
        (queryAt g oor clock [(a, A)] s B).downlink) →
      overTraffic oor (addTraffic B (queryAt g oor clock [(a, A)] s B).uplink
        (queryAt g oor clock [(a, A)] s B).downlink) = false →
      expired (nowAt g oor clock [(a, A)] s B) B = false →
      UsersConfig.get (tick g oor clock [(a, A), (b, B)] s).users a = some A ∧
      UsersConfig.get (tick g oor clock [(a, A), (b, B)] s).users b =
        some (addTraffic B (queryAt g oor clock [(a, A)] s B).uplink
          (queryAt g oor clock [(a, A)] s B).downlink) ∧
      (addTraffic B (queryAt g oor clock [(a, A)] s B).uplink
          (queryAt g oor clock [(a, A)] s B).downlink).TrafficUsedBytes =
        wrapInt64 (B.TrafficUsedBytes + wrapInt64 ((queryAt g oor clock [(a, A)] s B).uplink +
          (queryAt g oor clock [(a, A)] s B).downlink)) ∧
      (tick g oor clock [(a, A), (b, B)] s).saved =
        some (tick g oor clock [(a, A), (b, B)] s).users ∧
      (tick g oor clock [(a, A), (b, B)] s).restarted = false) ∧
    (∀ (a b : String) (A B : User) (s : σ), a ≠ b →
      A.IsActive = true → B.IsActive = true →
      (queryAt g oor clock [(b, B)] s A).err ≠ none →
      (queryAt g oor clock [] s B).err = none →
      0 < wrapInt64 ((queryAt g oor clock [] s B).uplink +
        (queryAt g oor clock [] s B).downlink) →
      overTraffic oor (addTraffic B (queryAt g oor clock [] s B).uplink
        (queryAt g oor clock [] s B).downlink) = false →
      expired (nowAt g oor clock [] s B) B = false →
      UsersConfig.get (tick g oor clock [(b, B), (a, A)] s).users a = some A ∧
      UsersConfig.get (tick g oor clock [(b, B), (a, A)] s).users b =
        some (addTraffic B (queryAt g oor clock [] s B).uplink
          (queryAt g oor clock [] s B).downlink) ∧
      (addTraffic B (queryAt g oor clock [] s B).uplink
          (queryAt g oor clock [] s B).downlink).TrafficUsedBytes =
        wrapInt64 (B.TrafficUsedBytes + wrapInt64 ((queryAt g oor clock [] s B).uplink +
          (queryAt g oor clock [] s B).downlink)) ∧
      (tick g oor clock [(b, B), (a, A)] s).saved =
        some (tick g oor clock [(b, B), (a, A)] s).users ∧
      (tick g oor clock [(b, B), (a, A)] s).restarted = false) := by
  refine ⟨?_, ?_, ?_, ?_, ?_⟩
  · intro pre post k u s hwf hq
    exact tick_get_err g oor clock pre post k u s hwf hq
  · intro pre post k u s hwf
    exact tick_get_own g oor clock pre post k u s hwf
  · intro σ' g' clock' s' pre post k u s hwf hq hn
    rw [tick_get_own g' oor clock' pre post k u s' hwf,
      tick_get_own g oor clock pre post k u s hwf, hq, hn]
  · intro a b A B s hab hA hB hqA hqB hpos hover htime
    have hwf : UsersConfig.WF [(a, A), (b, B)] := by
      simp [UsersConfig.WF, UsersConfig.keys, hab]
    have hwf2 : UsersConfig.WF ([(a, A)] ++ (b, B) :: []) := hwf
    have h1 : UsersConfig.get (tick g oor clock [(a, A), (b, B)] s).users a = some A :=
      tick_get_err g oor clock [] [(b, B)] a A s hwf hqA
    have h2 : UsersConfig.get (tick g oor clock [(a, A), (b, B)] s).users b = _ :=
      tick_get_ok g oor clock [(a, A)] [] b B s hwf2 hB hqB
    rw [enforce_quiet oor _ B _ _ hB hover htime] at h2
    have hBa : (addTraffic B (queryAt g oor clock [(a, A)] s B).uplink
        (queryAt g oor clock [(a, A)] s B).downlink).IsActive = true := by
      rw [(addTraffic_frame B _ _).2.2.2.2, hB]
    have hsaved : (tick g oor clock [(a, A), (b, B)] s).saved.isSome = true := by
      rw [tick_saved_iff_changed g oor clock _ s hwf]
      exact ⟨[(a, A)], b, B, [], rfl, hB, hqB, Or.inl hpos⟩
    refine ⟨h1, h2, ?_, ?_, tick_two_quiet g oor clock a b A B _ _ s hwf h1 h2 hA hBa⟩
    · unfold addTraffic
      rw [if_pos hpos]
    · have := tick_saved g oor clock [(a, A), (b, B)] s hwf
      rw [if_pos hsaved] at this
      exact this
  · intro a b A B s hab hA hB hqA hqB hpos hover htime
    have hwf : UsersConfig.WF [(b, B), (a, A)] := by
      simp [UsersConfig.WF, UsersConfig.keys, Ne.symm hab]
    have hwf2 : UsersConfig.WF ([(b, B)] ++ (a, A) :: []) := hwf
    have h1 : UsersConfig.get (tick g oor clock [(b, B), (a, A)] s).users a = some A :=
      tick_get_err g oor clock [(b, B)] [] a A s hwf2 hqA
    have h2 : UsersConfig.get (tick g oor clock [(b, B), (a, A)] s).users b = _ :=
      tick_get_ok g oor clock [] [(a, A)] b B s hwf hB hqB
    rw [enforce_quiet oor _ B _ _ hB hover htime] at h2
    have hBa : (addTraffic B (queryAt g oor clock [] s B).uplink
        (queryAt g oor clock [] s B).downlink).IsActive = true := by
      rw [(addTraffic_frame B _ _).2.2.2.2, hB]
    have hsaved : (tick g oor clock [(b, B), (a, A)] s).saved.isSome = true := by
      rw [tick_saved_iff_changed g oor clock _ s hwf]
      exact ⟨[], b, B, [(a, A)], rfl, hB, hqB, Or.inl hpos⟩
    refine ⟨h1, h2, ?_, ?_, tick_two_quiet g oor clock b a B A _ _ s hwf h2 h1 hBa hA⟩
    · unfold addTraffic
      rw [if_pos hpos]
    · have := tick_saved g oor clock [(b, B), (a, A)] s hwf
      rw [if_pos hsaved] at this
      exact this

/-- C8, witness: the downlink call for `a` fails; `b` uses 100 bytes. The
account `a` keeps its record, `b` gets 107 bytes, the registry is saved and
no restart is called. -/
theorem metrics_failure_isolation_witness :
    UsersConfig.get (tick scripted oorAmd64 (fixedClock 0) twoActive
        [statReply 9, errReply, statReply 60, statReply 40]).users "a" =
      some (account "a" (.finite 1 0) 0 5) ∧
    UsersConfig.get (tick scripted oorAmd64 (fixedClock 0) twoActive
        [statReply 9, errReply, statReply 60, statReply 40]).users "b" =
      some (addTraffic (account "b" (.finite 1 0) 0 7)
        (queryAt scripted oorAmd64 (fixedClock 0) [("a", account "a" (.finite 1 0) 0 5)]
          [statReply 9, errReply, statReply 60, statReply 40]
          (account "b" (.finite 1 0) 0 7)).uplink
        (queryAt scripted oorAmd64 (fixedClock 0) [("a", account "a" (.finite 1 0) 0 5)]
          [statReply 9, errReply, statReply 60, statReply 40]
          (account "b" (.finite 1 0) 0 7)).downlink) ∧
    (addTraffic (account "b" (.finite 1 0) 0 7)
        (queryAt scripted oorAmd64 (fixedClock 0) [("a", account "a" (.finite 1 0) 0 5)]
          [statReply 9, errReply, statReply 60, statReply 40]
          (account "b" (.finite 1 0) 0 7)).uplink
        (queryAt scripted oorAmd64 (fixedClock 0) [("a", account "a" (.finite 1 0) 0 5)]
          [statReply 9, errReply, statReply 60, statReply 40]
          (account "b" (.finite 1 0) 0 7)).downlink).TrafficUsedBytes =
      wrapInt64 ((account "b" (.finite 1 0) 0 7).TrafficUsedBytes +
        wrapInt64 ((queryAt scripted oorAmd64 (fixedClock 0) [("a", account "a" (.finite 1 0) 0 5)]
            [statReply 9, errReply, statReply 60, statReply 40]
            (account "b" (.finite 1 0) 0 7)).uplink +
          (queryAt scripted oorAmd64 (fixedClock 0) [("a", account "a" (.finite 1 0) 0 5)]
            [statReply 9, errReply, statReply 60, statReply 40]
            (account "b" (.finite 1 0) 0 7)).downlink)) ∧
    (tick scripted oorAmd64 (fixedClock 0) twoActive
        [statReply 9, errReply, statReply 60, statReply 40]).saved =
      some (tick scripted oorAmd64 (fixedClock 0) twoActive
        [statReply 9, errReply, statReply 60, statReply 40]).users ∧
    (tick scripted oorAmd64 (fixedClock 0) twoActive
        [statReply 9, errReply, statReply 60, statReply 40]).restarted = false :=
  (metrics_failure_isolation scripted oorAmd64 (fixedClock 0)).2.2.2.1 "a" "b"
    (account "a" (.finite 1 0) 0 5) (account "b" (.finite 1 0) 0 7)
    [statReply 9, errReply, statReply 60, statReply 40]
    (by decide) (by decide) (by decide) (by decide) (by decide) (by decide) (by decide)
    (by decide)

/-- C8, counterexample: the downlink call for `a` fails and the query for `b`
succeeds with the counters `-1` and `0`, a traffic that is not zero; no limit
is crossed. The usage of `b` is not updated, and nothing is saved. -/
theorem metrics_failure_isolation_fails_on_negative_traffic :
    (queryAt scripted oorAmd64 (fixedClock 0) [] [statReply 9, errReply, statReply (-1), statReply 0]
        (account "a" (.finite 1 0) 0 5)).err ≠ none ∧
    queryAt scripted oorAmd64 (fixedClock 0) [("a", account "a" (.finite 1 0) 0 5)]
        [statReply 9, errReply, statReply (-1), statReply 0] (account "b" (.finite 1 0) 0 7) =
      { uplink := -1, downlink := 0, err := none } ∧
    wrapInt64 (-1 + 0) ≠ 0 ∧
    (tick scripted oorAmd64 (fixedClock 0) twoActive
        [statReply 9, errReply, statReply (-1), statReply 0]).users = twoActive ∧
    (tick scripted oorAmd64 (fixedClock 0) twoActive
        [statReply 9, errReply, statReply (-1), statReply 0]).saved = none := by
  decide

/-! ## The client list of the configuration -/

/-- C9. For a snapshot with at least one active account, the configuration
has the public inbound (protocol `vmess`, tag `vmess-in`) with exactly one
client entry per active account, with `ID` the account id and `Email` equal
to `"user_" + id`, as many entries as there are active accounts and none
besides (so none for an inactive account); the other inbound has no
client. -/
theorem clients_of_active_accounts (users : UsersConfig) (port g : String)
    (h : ∃ e ∈ users, e.2.IsActive = true) :
    inboundClients (generateV2RayConfig users port g) =
      [("vmess", "vmess-in",
          (activeAccounts users).map
            (fun u => { ID := u.ID, AlterID := 0, Email := "user_" ++ u.ID, Level := 0 })),
        ("dokodemo-door", "API", [])] ∧
    (v2rayClients users g).length = (activeAccounts users).length ∧
    (∀ u ∈ activeAccounts users, u.IsActive = true ∧ ∃ k, (k, u) ∈ users) ∧
    (∀ k u, (k, u) ∈ users → u.IsActive = true → u ∈ activeAccounts users) := by
  have hne : (activeAccounts users).length ≠ 0 := by
    obtain ⟨e, he, ha⟩ := h
    intro h0
    have hnil := List.length_eq_zero.mp h0
    rw [activeAccounts_eq_nil] at hnil
    rw [hnil e he] at ha
    exact absurd ha (by simp)
  have hc : v2rayClients users g = (activeAccounts users).map (fun u => clientFor u.ID) := by
    unfold v2rayClients
    rw [collectClients_eq]
    simp only [hne, if_false]
  refine ⟨?_, ?_, ?_, ?_⟩
  · simp only [inboundClients, generateV2RayConfig, List.map_cons, List.map_nil, hc]
    rfl
  · rw [hc, List.length_map]
  · intro u hu
    unfold activeAccounts at hu
    simp only [List.mem_map, List.mem_filter] at hu
    obtain ⟨e, ⟨he, ha⟩, rfl⟩ := hu
    exact ⟨ha, e.1, he⟩
  · intro k u hk ha
    unfold activeAccounts
    simp only [List.mem_map, List.mem_filter]
    exact ⟨(k, u), ⟨hk, ha⟩, rfl⟩

/-- C9, witness: one active and one inactive account give one client. -/
theorem clients_of_active_accounts_witness :
    (∃ e ∈ oneOfTwoActive, e.2.IsActive = true) ∧
    inboundClients (generateV2RayConfig oneOfTwoActive "8080" "g") =
      [("vmess", "vmess-in", [{ ID := "a", AlterID := 0, Email := "user_a", Level := 0 }]),
        ("dokodemo-door", "API", [])] :=
  ⟨⟨("a", account "a" (.finite 1 0) 0 5), by decide, by decide⟩,
    (clients_of_active_accounts oneOfTwoActive "8080" "g"
      ⟨("a", account "a" (.finite 1 0) 0 5), by decide, by decide⟩).1⟩

/-- C10. For a snapshot with no active account (the empty map, or every
account inactive) the public inbound has exactly one client, whose `ID` is
the freshly generated identifier `g` and whose `Email` is `"user_" + g`; and
for every snapshot the client list of the public inbound is not empty. -/
theorem placeholder_client (users : UsersConfig) (port g : String) :
    ((∀ e ∈ users, e.2.IsActive = false) →
      inboundClients (generateV2RayConfig users port g) =
        [("vmess", "vmess-in", [{ ID := g, AlterID := 0, Email := "user_" ++ g, Level := 0 }]),
          ("dokodemo-door", "API", [])]) ∧
    (∃ c cs, inboundClients (generateV2RayConfig users port g) =
      [("vmess", "vmess-in", c :: cs), ("dokodemo-door", "API", [])]) := by
  have hfix : inboundClients (generateV2RayConfig users port g) =
      [("vmess", "vmess-in", v2rayClients users g), ("dokodemo-door", "API", [])] := rfl
  constructor
  · intro hall
    have hnil := (activeAccounts_eq_nil users).mpr hall
    have hc : v2rayClients users g = [clientFor g] := by
      unfold v2rayClients
      rw [collectClients_eq, hnil]
      simp
    rw [hfix, hc]
    rfl
  · rw [hfix]
    unfold v2rayClients
    rw [collectClients_eq]
    cases hA : activeAccounts users with
    | nil => exact ⟨clientFor g, [], by simp⟩
    | cons u us => exact ⟨clientFor u.ID, us.map (fun u => clientFor u.ID), by simp⟩

/-- C10, witness: the empty snapshot, and a snapshot whose only account is
inactive. -/
theorem placeholder_client_witness :
    inboundClients (generateV2RayConfig [] "8080" "g") =
      [("vmess", "vmess-in", [{ ID := "g", AlterID := 0, Email := "user_g", Level := 0 }]),
        ("dokodemo-door", "API", [])] ∧
    inboundClients (generateV2RayConfig [("b", inactiveAccount "b" (.finite 1 0) 0 7)]
        "8080" "g") =
      [("vmess", "vmess-in", [{ ID := "g", AlterID := 0, Email := "user_g", Level := 0 }]),
        ("dokodemo-door", "API", [])] :=
  ⟨(placeholder_client [] "8080" "g").1 (by decide),
    (placeholder_client [("b", inactiveAccount "b" (.finite 1 0) 0 7)] "8080" "g").1
      (by decide)⟩

/-! ## Agreement of the stats tags -/

theorem v2rayClients_of_active (users : UsersConfig) (g : String)
    (h : ∃ e ∈ users, e.2.IsActive = true) :
    v2rayClients users g = (activeAccounts users).map (fun u => clientFor u.ID) := by
  have hne : (activeAccounts users).length ≠ 0 := by
    obtain ⟨e, he, ha⟩ := h
    intro h0
    have hnil := List.length_eq_zero.mp h0
    rw [activeAccounts_eq_nil] at hnil
    rw [hnil e he] at ha
    exact absurd ha (by simp)
  unfold v2rayClients
  rw [collectClients_eq]
  simp only [hne, if_false]

theorem queriesOf_append (l1 l2 : UsersConfig) :
    queriesOf (l1 ++ l2) = queriesOf l1 ++ queriesOf l2 := by
  induction l1 with
  | nil => rfl
  | cons e tl ih =>
    by_cases ha : e.2.IsActive = false
    · simp [queriesOf, ha, ih]
    · simp [queriesOf, ha, ih]

theorem queriesOf_requestsFor (users : UsersConfig) :
    queriesOf users = requestsFor ((activeAccounts users).map (fun u => clientFor u.ID)) := by
  induction users with
  | nil => rfl
  | cons e tl ih =>
    by_cases ha : e.2.IsActive = false
    · simp [queriesOf, activeAccounts, List.filter_cons, ha] at ih ⊢
      exact ih
    · have ha' : e.2.IsActive = true := by simpa using ha
      simp only [queriesOf, ha, if_false, activeAccounts, List.filter_cons, ha', if_true,
        List.map_cons, requestsFor] at ih ⊢
      rw [ih]
      rfl

theorem gwAfter_recording {σ : Type} (g : StatsServiceClient σ) (oor : Float64 → Int)
    (clock : σ → Time) (l : UsersConfig) (s : σ) :
    gwAfter (recording g) oor (recordingClock clock) l (s, []) =
      (gwAfter g oor clock l s, queriesOf l) := by
  have h := tickLoop_recording g oor clock l (LoopState.init s) []
  simp only [LoopState.init, List.nil_append] at h
  unfold gwAfter
  simp only [LoopState.init, h]

/-- C11. The requests a tick sends, as recorded at the gateway, are the
uplink and downlink requests built from the `Email` of the client entries
that `generateV2RayConfig` produces for the same registry, in the same order,
all with `Reset = true`; and for every active account with id `i` the
configuration has a client entry `c` with `ID = i` and `Email = "user_" + i`,
and the two requests sent in the account's iteration are exactly those named
`"user>>>" + c.Email + ">>>traffic>>>uplink"` and
`"user>>>" + c.Email + ">>>traffic>>>downlink"`, with `Reset = true`. -/
theorem tag_agreement {σ : Type} (g : StatsServiceClient σ) (oor : Float64 → Int)
    (clock : σ → Time) (users : UsersConfig) (s : σ) (port uuid : String)
    (h : ∃ e ∈ users, e.2.IsActive = true) :
    (∃ clients, inboundClients (generateV2RayConfig users port uuid) =
        [("vmess", "vmess-in", clients), ("dokodemo-door", "API", [])] ∧
      (tick (recording g) oor (recordingClock clock) users (s, [])).gw.2 =
        requestsFor clients) ∧
    (∀ (pre post : UsersConfig) (k : String) (u : User),
      users = pre ++ (k, u) :: post → u.IsActive = true →
      ∃ c ∈ v2rayClients users uuid, c.ID = u.ID ∧ c.Email = "user_" ++ u.ID ∧
        (gwAfter (recording g) oor (recordingClock clock) (pre ++ [(k, u)]) (s, [])).2 =
          (gwAfter (recording g) oor (recordingClock clock) pre (s, [])).2 ++
            [{ Name := "user>>>" ++ c.Email ++ ">>>traffic>>>uplink", Reset := true },
             { Name := "user>>>" ++ c.Email ++ ">>>traffic>>>downlink", Reset := true }]) := by
  have hc := v2rayClients_of_active users uuid h
  constructor
  · refine ⟨v2rayClients users uuid, rfl, ?_⟩
    rw [(tick_recording g oor clock users s).2.2.2, hc]
    exact queriesOf_requestsFor users
  · intro pre post k u hu ha
    refine ⟨clientFor u.ID, ?_, rfl, rfl, ?_⟩
    · rw [hc]
      simp only [List.mem_map]
      refine ⟨u, ?_, rfl⟩
      unfold activeAccounts
      simp only [List.mem_map, List.mem_filter]
      exact ⟨(k, u), ⟨by rw [hu]; simp, ha⟩, rfl⟩
    · rw [gwAfter_recording, gwAfter_recording, queriesOf_append]
      have hne : ¬ u.IsActive = false := by simp [ha]
      simp only [queriesOf, hne, if_false]
      rfl

/-- C11, witness: the registry with the active account `a` and the inactive
account `b`: one client entry, tagged `user_a`, and the two requests for
`user_a`. -/
theorem tag_agreement_witness :
    (∃ e ∈ oneOfTwoActive, e.2.IsActive = true) ∧
    inboundClients (generateV2RayConfig oneOfTwoActive "8080" "g") =
      [("vmess", "vmess-in", [{ ID := "a", AlterID := 0, Email := "user_a", Level := 0 }]),
        ("dokodemo-door", "API", [])] ∧
    (tick (recording scripted) oorAmd64 (recordingClock (fixedClock 0)) oneOfTwoActive
        ([statReply 60, statReply 40], [])).gw.2 =
      [{ Name := "user>>>user_a>>>traffic>>>uplink", Reset := true },
        { Name := "user>>>user_a>>>traffic>>>downlink", Reset := true }] ∧
    ∃ clients, inboundClients (generateV2RayConfig oneOfTwoActive "8080" "g") =
        [("vmess", "vmess-in", clients), ("dokodemo-door", "API", [])] ∧
      (tick (recording scripted) oorAmd64 (recordingClock (fixedClock 0)) oneOfTwoActive
        ([statReply 60, statReply 40], [])).gw.2 = requestsFor clients :=
  ⟨⟨("a", account "a" (.finite 1 0) 0 5), by decide, by decide⟩, by decide, by decide,
    (tag_agreement scripted oorAmd64 (fixedClock 0) oneOfTwoActive
      [statReply 60, statReply 40] "8080" "g"
      ⟨("a", account "a" (.finite 1 0) 0 5), by decide, by decide⟩).1⟩

/-! ## The frame of a tick -/

/-- C14. A tick on a well-formed registry neither adds nor removes an
account: the keys after the tick are the keys before, and still pairwise
distinct; and every account keeps its `ID`, `TrafficLimitGB`,
`TimeLimitDays` and `CreatedAt`, whatever the gateway answers. -/
theorem tick_frame {σ : Type} (g : StatsServiceClient σ) (oor : Float64 → Int)
    (clock : σ → Time) (users : UsersConfig) (s : σ) (hwf : UsersConfig.WF users) :
    (∀ k, k ∈ UsersConfig.keys (tick g oor clock users s).users ↔ k ∈ UsersConfig.keys users) ∧
    UsersConfig.WF (tick g oor clock users s).users ∧
    (∀ k, UsersConfig.get users k = none →
      UsersConfig.get (tick g oor clock users s).users k = none) ∧
    (∀ k u, UsersConfig.get users k = some u →
      ∃ u', UsersConfig.get (tick g oor clock users s).users k = some u' ∧
        u'.ID = u.ID ∧ u'.TrafficLimitGB = u.TrafficLimitGB ∧
        u'.TimeLimitDays = u.TimeLimitDays ∧ u'.CreatedAt = u.CreatedAt) := by
  refine ⟨tick_keys g oor clock users s, tick_users_wf g oor clock users s hwf, ?_, ?_⟩
  · intro k hk
    rw [get_eq_none_iff] at hk ⊢
    rw [tick_keys]
    exact hk
  · intro k u hget
    obtain ⟨pre, post, rfl⟩ := mem_split_of_get users k u hget
    refine ⟨_, tick_get_own g oor clock pre post k u s hwf, ?_⟩
    split
    · rw [enforce_user]
      obtain ⟨h1, h2, h3, h4, _⟩ := addTraffic_frame u (queryAt g oor clock pre s u).uplink
        (queryAt g oor clock pre s u).downlink
      exact ⟨h1, h2, h3, h4⟩
    · exact ⟨rfl, rfl, rfl, rfl⟩

/-- C14, witness: a tick in which the account `a` uses 100 bytes; the keys
are `a` and `b` before and after. -/
theorem tick_frame_witness :
    UsersConfig.WF oneOfTwoActive ∧
    UsersConfig.keys (tick scripted oorAmd64 (fixedClock 0) oneOfTwoActive
      [statReply 60, statReply 40]).users = ["a", "b"] ∧
    ∀ k, k ∈ UsersConfig.keys (tick scripted oorAmd64 (fixedClock 0) oneOfTwoActive
        [statReply 60, statReply 40]).users ↔ k ∈ UsersConfig.keys oneOfTwoActive :=
  ⟨by decide, by decide,
    (tick_frame scripted oorAmd64 (fixedClock 0) oneOfTwoActive [statReply 60, statReply 40]
      (by decide)).1⟩

/-! ## The result of a restart -/

theorem stopEvents_mem (os : OS) (cmd : Option Cmd) (e : Event) (h : e ∈ stopEvents os cmd) :
    ∃ pid, e = Event.signal pid ∨ e = Event.kill pid := by
  unfold stopEvents at h
  split at h
  · simp at h
  · split at h
    · simp at h
    · rename_i p _
      split at h
      · simp only [List.mem_singleton] at h
        exact ⟨p.Pid, Or.inl h⟩
      · simp only [List.mem_cons, List.mem_singleton, List.not_mem_nil, or_false] at h
        rcases h with h | h
        · exact ⟨p.Pid, Or.inl h⟩
        · exact ⟨p.Pid, Or.inr h⟩

/-- C12. For well-formed global variables `gl`, `handleRestartV2Ray` returns
an error if and only if generating the configuration fails, or writing it
to `/tmp/v2ray_config.json` fails, or starting the new process fails; two
runs that differ only in what signalling and killing the old process answer
return the same error and leave the same `v2rayCmd`; and whatever is written
is the encoding of the configuration generated from the registry held in
`gl`, the global variables at the time of the call. -/
theorem restart_error_iff (os : OS) (port : String) (gl : Globals)
    (hwf : UsersConfig.WF gl.currentUsersConfig) :
    ((handleRestartV2Ray os port gl).err ≠ none ↔
      (∃ e, os.marshal (generateV2RayConfig gl.currentUsersConfig port os.newUUID) = .error e) ∨
      (∃ b, os.marshal (generateV2RayConfig gl.currentUsersConfig port os.newUUID) = .ok b ∧
        os.writeFile "/tmp/v2ray_config.json" b ≠ none) ∨
      (∃ e, os.start ["v2ray", "-config", "/tmp/v2ray_config.json"] = .error e)) ∧
    (∀ os' : OS, os'.marshal = os.marshal → os'.writeFile = os.writeFile →
      os'.start = os.start → os'.newUUID = os.newUUID →
      (handleRestartV2Ray os' port gl).err = (handleRestartV2Ray os port gl).err ∧
      (handleRestartV2Ray os' port gl).v2rayCmd = (handleRestartV2Ray os port gl).v2rayCmd) ∧
    (∀ path data, Event.writeFile path data ∈ (handleRestartV2Ray os port gl).events →
      path = "/tmp/v2ray_config.json" ∧
      os.marshal (generateV2RayConfig gl.currentUsersConfig port os.newUUID) = .ok data) ∧
    ((handleRestartV2Ray os port gl).err = none →
      ∃ data, os.marshal (generateV2RayConfig gl.currentUsersConfig port os.newUUID) =
          .ok data ∧
        Event.writeFile "/tmp/v2ray_config.json" data ∈ (handleRestartV2Ray os port gl).events) := by
  have hcopy := applyUpdates_nil_eq gl.currentUsersConfig hwf
  have hstop : ∀ path data, Event.writeFile path data ∉ stopEvents os gl.v2rayCmd := by
    intro path data hmem
    obtain ⟨pid, h | h⟩ := stopEvents_mem os gl.v2rayCmd _ hmem <;> simp at h
  refine ⟨?_, ?_, ?_, ?_⟩
  · cases hm : os.marshal (generateV2RayConfig gl.currentUsersConfig port os.newUUID) with
    | error e => simp [handleRestartV2Ray, generateV2RayConfigBytes, hcopy, hm]
    | ok b =>
      cases hw : os.writeFile "/tmp/v2ray_config.json" b with
      | some e => simp [handleRestartV2Ray, generateV2RayConfigBytes, hcopy, hm, hw]
      | none =>
        cases hs : os.start ["v2ray", "-config", "/tmp/v2ray_config.json"] with
        | error e => simp [handleRestartV2Ray, generateV2RayConfigBytes, hcopy, hm, hw, hs]
        | ok pr => simp [handleRestartV2Ray, generateV2RayConfigBytes, hcopy, hm, hw, hs]
  · intro os' h1 h2 h3 h4
    simp only [handleRestartV2Ray, generateV2RayConfigBytes, h1, h2, h3, h4]
    constructor
    · split <;> (try split) <;> (try split) <;> rfl
    · split <;> (try split) <;> (try split) <;> rfl
  · intro path data
    cases hm : os.marshal (generateV2RayConfig gl.currentUsersConfig port os.newUUID) with
    | error e => simp [handleRestartV2Ray, generateV2RayConfigBytes, hcopy, hm, hstop]
    | ok b =>
      cases hw : os.writeFile "/tmp/v2ray_config.json" b with
      | some e =>
        simp only [handleRestartV2Ray, generateV2RayConfigBytes, hcopy, hm, hw,
          List.mem_append, List.mem_cons, List.mem_singleton, hstop]
        simp
        intro h1 h2
        exact ⟨h1, h2.symm⟩
      | none =>
        cases hs : os.start ["v2ray", "-config", "/tmp/v2ray_config.json"] with
        | error e =>
          simp only [handleRestartV2Ray, generateV2RayConfigBytes, hcopy, hm, hw, hs,
            List.mem_append, List.mem_cons, List.mem_singleton, hstop]
          simp
          intro h1 h2
          exact ⟨h1, h2.symm⟩
        | ok pr =>
          simp only [handleRestartV2Ray, generateV2RayConfigBytes, hcopy, hm, hw, hs,
            List.mem_append, List.mem_cons, List.mem_singleton, hstop]
          simp
          intro h1 h2
          exact ⟨h1, h2.symm⟩
  · cases hm : os.marshal (generateV2RayConfig gl.currentUsersConfig port os.newUUID) with
    | error e => simp [handleRestartV2Ray, generateV2RayConfigBytes, hcopy, hm]
    | ok b =>
      cases hw : os.writeFile "/tmp/v2ray_config.json" b with
      | some e => simp [handleRestartV2Ray, generateV2RayConfigBytes, hcopy, hm, hw]
      | none =>
        cases hs : os.start ["v2ray", "-config", "/tmp/v2ray_config.json"] with
        | error e => simp [handleRestartV2Ray, generateV2RayConfigBytes, hcopy, hm, hw, hs]
        | ok pr => simp [handleRestartV2Ray, generateV2RayConfigBytes, hcopy, hm, hw, hs]

/-- C12, witness: a restart with a running old process; whether stopping it
succeeds or fails, the restart returns no error and stores the new process,
and the file written holds the tag of the one active account. -/
theorem restart_error_iff_witness :
    UsersConfig.WF (running oneOfTwoActive).currentUsersConfig ∧
    ((handleRestartV2Ray osStopFails "8080" (running oneOfTwoActive)).err =
        (handleRestartV2Ray osOk "8080" (running oneOfTwoActive)).err ∧
      (handleRestartV2Ray osStopFails "8080" (running oneOfTwoActive)).v2rayCmd =
        (handleRestartV2Ray osOk "8080" (running oneOfTwoActive)).v2rayCmd) ∧
    handleRestartV2Ray osStopFails "8080" (running oneOfTwoActive) =
      { err := none
        v2rayCmd := some { Process := some { Pid := 1 } }
        events := [Event.restartLock, Event.signal 7, Event.kill 7, Event.rlock, Event.runlock,
          Event.writeFile "/tmp/v2ray_config.json" "user_a",
          Event.start ["v2ray", "-config", "/tmp/v2ray_config.json"], Event.restartUnlock] } ∧
    (handleRestartV2Ray osStartFails "8080" (running oneOfTwoActive)).err =
      some "failed to start new V2Ray process: exec: v2ray: executable file not found" :=
  ⟨by decide,
    (restart_error_iff osOk "8080" (running oneOfTwoActive) (by decide)).2.1 osStopFails
      rfl rfl rfl rfl,
    by decide, by decide⟩

/-! ## Partial update -/

theorem saveAndRestart_users (save : UsersConfig → Option String) (os : OS) (port : String)
    (gl : Globals) (okStatus : Nat) :
    (saveAndRestart save os port gl okStatus).globals.currentUsersConfig =
      gl.currentUsersConfig := by
  unfold saveAndRestart
  split
  · rfl
  · split <;> rfl

/-- C13, as amended. `updateUserHandler` with a non-empty `id` that names an
existing account `e` and a body that decodes to `r` stores under the same
key the record with `TrafficLimitGB` of `r` if that is positive and of `e`
otherwise, `TimeLimitDays` of `r` if that is positive and of `e` otherwise,
`IsActive` of `r`, `TrafficUsedBytes` of `r` if that is not negative and of
`e` otherwise, and `ID` and `CreatedAt` of `e`; every other key reads as
before. This holds whatever `saveUsersConfig` and the restart answer. -/
theorem partial_update (save : UsersConfig → Option String) (os : OS) (port : String)
    (userID : String) (r e : User) (gl : Globals)
    (hid : userID ≠ "") (hget : UsersConfig.get gl.currentUsersConfig userID = some e) :
    UsersConfig.get (updateUserHandler save os port userID (some r) gl).globals.currentUsersConfig
        userID =
      some { ID := e.ID
             TrafficLimitGB :=
               if r.TrafficLimitGB.gtZero = true then r.TrafficLimitGB else e.TrafficLimitGB
             TimeLimitDays := if 0 < r.TimeLimitDays then r.TimeLimitDays else e.TimeLimitDays
             CreatedAt := e.CreatedAt
             TrafficUsedBytes :=
               if 0 ≤ r.TrafficUsedBytes then r.TrafficUsedBytes else e.TrafficUsedBytes
             IsActive := r.IsActive } ∧
    (∀ k, k ≠ userID →
      UsersConfig.get (updateUserHandler save os port userID (some r) gl).globals.currentUsersConfig
          k =
        UsersConfig.get gl.currentUsersConfig k) := by
  unfold updateUserHandler
  rw [if_neg hid]
  simp only [hget, saveAndRestart_users]
  constructor
  · rw [get_set]
    simp [applyUserUpdate]
  · intro k hk
    rw [get_set]
    simp [Ne.symm hk]

/-- C13, witness: the account `a` with 5 bytes used is given a limit of 2 GB
and 9 bytes used, and is switched off; `b` is untouched. -/
theorem partial_update_witness :
    UsersConfig.get (updateUserHandler saveOk osOk "8080" "a"
        (some { ID := "", TrafficLimitGB := .finite 2 0, TimeLimitDays := 0, CreatedAt := 0,
                TrafficUsedBytes := 9, IsActive := false })
        (running twoActive)).globals.currentUsersConfig "a" =
      some { ID := "a", TrafficLimitGB := .finite 2 0, TimeLimitDays := 0, CreatedAt := 0,
             TrafficUsedBytes := 9, IsActive := false } ∧
    UsersConfig.get (updateUserHandler saveOk osOk "8080" "a"
        (some { ID := "", TrafficLimitGB := .finite 2 0, TimeLimitDays := 0, CreatedAt := 0,
                TrafficUsedBytes := 9, IsActive := false })
        (running twoActive)).globals.currentUsersConfig "b" =
      some (account "b" (.finite 1 0) 0 7) :=
  ⟨(partial_update saveOk osOk "8080" "a"
      { ID := "", TrafficLimitGB := .finite 2 0, TimeLimitDays := 0, CreatedAt := 0,
        TrafficUsedBytes := 9, IsActive := false }
      (account "a" (.finite 1 0) 0 5) (running twoActive) (by decide) (by decide)).1,
    ((partial_update saveOk osOk "8080" "a"
      { ID := "", TrafficLimitGB := .finite 2 0, TimeLimitDays := 0, CreatedAt := 0,
        TrafficUsedBytes := 9, IsActive := false }
      (account "a" (.finite 1 0) 0 5) (running twoActive) (by decide) (by decide)).2 "b"
      (by decide)).trans (by decide)⟩

/-- C13, counterexample: the account `a` has 5 bytes used and the request
body carries `TrafficUsedBytes = -1`: the stored record keeps 5, not the
value given. -/
theorem partial_update_ignores_negative_usage :
    UsersConfig.get (running twoActive).currentUsersConfig "a" =
      some (account "a" (.finite 1 0) 0 5) ∧
    (UsersConfig.get (updateUserHandler saveOk osOk "8080" "a"
        (some { ID := "", TrafficLimitGB := .finite 0 0, TimeLimitDays := 0, CreatedAt := 0,
                TrafficUsedBytes := -1, IsActive := true })
        (running twoActive)).globals.currentUsersConfig "a").map User.TrafficUsedBytes =
      some 5 ∧
    (5 : Int) ≠ -1 := by
  decide

/-! ## Errors of the stats query -/

/-- C15, the code at the failing input: the uplink call fails and the
downlink call succeeds with the value 7. `queryV2RayStats` returns a nil
error with `uplink = 0` and `downlink = 7`, and the tick adds the 7 bytes to
the usage of the account and saves. -/
theorem query_drops_uplink_error :
    errReply.err ≠ none ∧
    (queryV2RayStats (some scripted) [errReply, statReply 7] "user_a" true).1 =
      { uplink := 0, downlink := 7, err := none } ∧
    (tick scripted oorAmd64 (fixedClock 0) (single 5) [errReply, statReply 7]).users =
      single 12 ∧
    (tick scripted oorAmd64 (fixedClock 0) (single 5) [errReply, statReply 7]).saved =
      some (single 12) := by
  decide

/-! ## A failed save in the handlers -/

/-- C16, the code at the failing input: `saveUsersConfig` fails. The handler
of `createUserHandler` answers 500 after the save, with the new account kept
in the registry, and the handler of `deleteUserHandler` answers 500 after the
save, with the account gone from the registry; neither goes on to
`handleRestartV2Ray`: no operation follows the save. With a save that
succeeds both restart the process. -/
theorem failed_save_skips_restart :
    createUserHandler saveFails osOk "8080" "n" 0
        (some { ID := "", TrafficLimitGB := .finite 1 0, TimeLimitDays := 30, CreatedAt := 0,
                TrafficUsedBytes := 0, IsActive := false })
        (running []) =
      { globals := running [("n", account "n" (.finite 1 0) 30 0)]
        status := 500
        events := [Event.lock, Event.unlock,
          Event.saveUsersConfig [("n", account "n" (.finite 1 0) 30 0)]] } ∧
    deleteUserHandler saveFails osOk "8080" "a" (running (single 5)) =
      { globals := running []
        status := 500
        events := [Event.lock, Event.unlock, Event.saveUsersConfig []] } ∧
    (createUserHandler saveOk osOk "8080" "n" 0
        (some { ID := "", TrafficLimitGB := .finite 1 0, TimeLimitDays := 30, CreatedAt := 0,
                TrafficUsedBytes := 0, IsActive := false })
        (running [])).events =
      [Event.lock, Event.unlock, Event.saveUsersConfig [("n", account "n" (.finite 1 0) 30 0)],
        Event.restartLock, Event.signal 7, Event.rlock, Event.runlock,
        Event.writeFile "/tmp/v2ray_config.json" "user_n",
        Event.start ["v2ray", "-config", "/tmp/v2ray_config.json"], Event.restartUnlock] ∧
    (deleteUserHandler saveOk osOk "8080" "a" (running (single 5))).events =
      [Event.lock, Event.unlock, Event.saveUsersConfig [],
        Event.restartLock, Event.signal 7, Event.rlock, Event.runlock,
        Event.writeFile "/tmp/v2ray_config.json" "user_g",
        Event.start ["v2ray", "-config", "/tmp/v2ray_config.json"], Event.restartUnlock] := by
  decide

/-! ## What is done while the registry lock is held -/

theorem heldEvents_getStats (held : Bool) (qs : List GetStatsRequest) (rest : List Event) :
    heldEvents held (qs.map Event.getStats ++ rest) =
      (if held then qs.map Event.getStats else []) ++ heldEvents held rest := by
  induction qs with
  | nil => cases held <;> simp
  | cons q tl ih =>
    cases held
    · simpa [heldEvents] using ih
    · simpa [heldEvents] using ih

theorem stopEvents_cases (os : OS) (cmd : Option Cmd) :
    stopEvents os cmd = [] ∨ (∃ pid, stopEvents os cmd = [Event.signal pid]) ∨
      ∃ pid, stopEvents os cmd = [Event.signal pid, Event.kill pid] := by
  unfold stopEvents
  split
  · exact Or.inl rfl
  · split
    · exact Or.inl rfl
    · rename_i p _
      split
      · exact Or.inr (Or.inl ⟨p.Pid, rfl⟩)
      · exact Or.inr (Or.inr ⟨p.Pid, rfl⟩)

/-- Nothing in `handleRestartV2Ray` is done while `configMutex` is held. -/
theorem heldEvents_restart (os : OS) (port : String) (gl : Globals) :
    heldEvents false (handleRestartV2Ray os port gl).events = [] := by
  unfold handleRestartV2Ray
  simp only
  rcases stopEvents_cases os gl.v2rayCmd with h | ⟨pid, h⟩ | ⟨pid, h⟩ <;> rw [h] <;>
    (split <;> (try split) <;> (try split) <;> simp [heldEvents])

/-- C17, as amended. In every enforcement tick, the operations performed
between the acquisition and the release of `configMutex` are exactly the
metrics queries of the tick, all of them: the tick takes the lock, sends the
`GetStats` requests of every active account while it holds the lock, and
releases it; no call of `saveUsersConfig`, no `WriteFile` and no process
signal, kill or start is performed while the lock is held, they all come
after the release. -/
theorem lock_discipline {σ : Type} (g : StatsServiceClient σ) (oor : Float64 → Int)
    (clock : σ → Time) (os : OS) (port : String) (gl : Globals) (s : σ) :
    heldEvents false (tickEvents g oor clock os port gl s) =
      (queriesOf gl.currentUsersConfig).map Event.getStats ∧
    (∀ e ∈ heldEvents false (tickEvents g oor clock os port gl s), ∃ req, e = Event.getStats req) ∧
    (∃ rest, tickEvents g oor clock os port gl s =
        Event.lock :: ((queriesOf gl.currentUsersConfig).map Event.getStats ++
          Event.unlock :: rest) ∧
      heldEvents false rest = [] ∧
      ∀ req, Event.getStats req ∉ rest) := by
  have hq := (tick_recording g oor clock gl.currentUsersConfig s).2.2.2
  have hrest : ∀ e ∈ (handleRestartV2Ray os port
      { currentUsersConfig := (tick g oor clock gl.currentUsersConfig s).users
        v2rayCmd := gl.v2rayCmd }).events, ∀ req, e ≠ Event.getStats req := by
    intro e he req hreq
    subst hreq
    unfold handleRestartV2Ray at he
    simp only at he
    rcases stopEvents_cases os gl.v2rayCmd with h | ⟨pid, h⟩ | ⟨pid, h⟩ <;> rw [h] at he <;>
      (split at he <;> (try split at he) <;> (try split at he) <;> simp at he)
  have hshape : ∃ rest, tickEvents g oor clock os port gl s =
      Event.lock :: ((queriesOf gl.currentUsersConfig).map Event.getStats ++
        Event.unlock :: rest) ∧
      heldEvents false rest = [] ∧ ∀ req, Event.getStats req ∉ rest := by
    unfold tickEvents
    rw [hq]
    cases hs : (tick g oor clock gl.currentUsersConfig s).saved with
    | none => exact ⟨[], by simp, rfl, by simp⟩
    | some m =>
      by_cases hr : (tick g oor clock gl.currentUsersConfig s).restarted = true
      · refine ⟨Event.saveUsersConfig m :: (handleRestartV2Ray os port
          { currentUsersConfig := (tick g oor clock gl.currentUsersConfig s).users
            v2rayCmd := gl.v2rayCmd }).events, by simp [hr], ?_, ?_⟩
        · simp [heldEvents, heldEvents_restart]
        · intro req hmem
          simp only [List.mem_cons] at hmem
          rcases hmem with hmem | hmem
          · simp at hmem
          · exact hrest _ hmem req rfl
      · exact ⟨[Event.saveUsersConfig m], by simp [hr], by simp [heldEvents], by simp⟩
  obtain ⟨rest, h1, h2, h3⟩ := hshape
  have hheld : heldEvents false (tickEvents g oor clock os port gl s) =
      (queriesOf gl.currentUsersConfig).map Event.getStats := by
    rw [h1]
    simp only [heldEvents]
    rw [heldEvents_getStats]
    simp [heldEvents, h2]
  refine ⟨hheld, ?_, rest, h1, h2, h3⟩
  intro e he
  rw [hheld, List.mem_map] at he
  obtain ⟨req, _, rfl⟩ := he
  exact ⟨req, rfl⟩

/-- C17, counterexample: a tick on a registry with the single active account
`a`, which uses 100 bytes. The two `GetStats` calls lie between
`configMutex.Lock()` and `configMutex.Unlock()`; the save comes after the
release. -/
theorem queries_are_made_under_the_lock :
    tickEvents scripted oorAmd64 (fixedClock 0) osOk "8080" (running (single 5))
        [statReply 60, statReply 40] =
      [Event.lock,
        Event.getStats { Name := "user>>>user_a>>>traffic>>>uplink", Reset := true },
        Event.getStats { Name := "user>>>user_a>>>traffic>>>downlink", Reset := true },
        Event.unlock,
        Event.saveUsersConfig (single 105)] ∧
    heldEvents false (tickEvents scripted oorAmd64 (fixedClock 0) osOk "8080" (running (single 5))
        [statReply 60, statReply 40]) =
      [Event.getStats { Name := "user>>>user_a>>>traffic>>>uplink", Reset := true },
        Event.getStats { Name := "user>>>user_a>>>traffic>>>downlink", Reset := true }] := by
  decide

end Gcvp
